import Mathlib

/-!
# Control Plane provider: secret and domain-route resource handlers

A shallow embedding of `internal/provider/resource_secret.go` and
`internal/provider/resource_domain_route.go`.

* Go `interface{}` values are the inductive types `Field` (what sits under a key
  of a `map[string]interface{}`) and `Value` (what `d.Get` returns and what the
  remote `data` pointer points to).
* A Go map is an association list read with `mget` (a missing key reads as the
  untyped `nil`, as in Go) and written with `mput`.
* A handler is a function from the resource data (and the client) to the new
  resource data and the diagnostics it returns.
-/

namespace Cpln

/-! ## Values -/

/-- What is stored under one key of a `map[string]interface{}`: untyped `nil`, a
string, a `[]string`, or a `*schema.Set` of strings (given by its `List()`). -/
inductive Field where
  | null
  | str (s : String)
  | strs (l : List String)
  | set (l : List String)
  deriving DecidableEq, Repr

/-- A Go `map[string]interface{}` as an association list. -/
abbrev GoMap := List (String × Field)

/-- Reading `m[k]`: a missing key gives the untyped `nil`. -/
def mget (m : GoMap) (k : String) : Field :=
  (m.lookup k).getD Field.null

/-- The statement `m[k] = v`. -/
def mput (m : GoMap) (k : String) (v : Field) : GoMap :=
  m.filter (fun e => e.1 ≠ k) ++ [(k, v)]

/-- Whether `k` is a key of `m` (with whatever value, `nil` included). -/
def mhas (m : GoMap) (k : String) : Bool :=
  (m.lookup k).isSome

/-- A Go map holds each key once. -/
def uniqueKeys (m : GoMap) : Prop :=
  (m.map Prod.fst).Nodup

instance (m : GoMap) : Decidable (uniqueKeys m) := by
  unfold uniqueKeys; infer_instance

/-- A Go `interface{}` as the handlers meet it: `nil`, a string, an int, a
`[]interface{}` of blocks (each a `map[string]interface{}`), or a map. -/
inductive Value where
  | null
  | str (s : String)
  | int (n : Int)
  | list (l : List GoMap)
  | map (m : GoMap)
  deriving DecidableEq, Repr

/-- The part of `client.Secret` the handlers fill: every field is a pointer,
`none` is the nil pointer. The Go field `Type` is `Typ` here. -/
structure Secret where
  Name : Option String := none
  Description : Option String := none
  Tags : Option GoMap := none
  Typ : Option String := none
  Data : Option Value := none
  DataReplace : Option Value := none
  deriving DecidableEq, Repr

/-- How a Go call can fail: with an `error` value, or with a run-time panic of a
failed type assertion. -/
inductive Failure where
  | err (msg : String)
  | panic
  deriving DecidableEq, Repr

deriving instance DecidableEq for Except

/-! ## The secret resource: names -/

/-- The list `secretDataObjectsNames` (resource_secret.go, lines 15-18). -/
def secretDataObjectsNames : List String :=
  ["aws", "azure_connector", "azure_sdk", "docker", "dictionary", "ecr",
   "gcp", "keypair", "opaque", "tls", "userpass", "nats_account"]

/-! ## Resource data, diagnostics and the schema -/

/-- The `Type` of a schema entry. -/
inductive ValueType where
  | TypeString
  | TypeInt
  | TypeMap
  | TypeList
  deriving DecidableEq, Repr

/-- One top-level entry of a resource schema: its name, its type, its
`ExactlyOneOf` list, and the keys of its `Elem` resource when it is a block. -/
structure SchemaField where
  name : String
  type : ValueType
  exactlyOneOf : List String := []
  elem : List String := []
  deriving DecidableEq, Repr

/-- The zero value `d.Get` gives for a field of each type. -/
def ValueType.zero : ValueType → Value
  | ValueType.TypeString => Value.str ""
  | ValueType.TypeInt => Value.int 0
  | ValueType.TypeMap => Value.map []
  | ValueType.TypeList => Value.list []

/-- The schema of resourceSecret (resource_secret.go, lines 26-291), top level. -/
def resourceSecretSchema : List SchemaField :=
  [ { name := "cpln_id", type := ValueType.TypeString },
    { name := "name", type := ValueType.TypeString },
    { name := "description", type := ValueType.TypeString },
    { name := "tags", type := ValueType.TypeMap },
    { name := "self_link", type := ValueType.TypeString },
    { name := "dictionary", type := ValueType.TypeMap,
      exactlyOneOf := secretDataObjectsNames },
    { name := "dictionary_as_envs", type := ValueType.TypeMap },
    { name := "opaque", type := ValueType.TypeList,
      exactlyOneOf := secretDataObjectsNames, elem := ["payload", "encoding"] },
    { name := "tls", type := ValueType.TypeList,
      exactlyOneOf := secretDataObjectsNames, elem := ["key", "cert", "chain"] },
    { name := "gcp", type := ValueType.TypeString,
      exactlyOneOf := ["aws", "azure_connector", "azure_sdk", "docker", "dictionary",
        "ecr", "gcp", "keypair", "nats_account", "opaque", "tls", "userpass"] },
    { name := "aws", type := ValueType.TypeList,
      exactlyOneOf := secretDataObjectsNames,
      elem := ["secret_key", "access_key", "role_arn"] },
    { name := "ecr", type := ValueType.TypeList,
      exactlyOneOf := secretDataObjectsNames,
      elem := ["secret_key", "access_key", "role_arn", "external_id", "repos"] },
    { name := "docker", type := ValueType.TypeString,
      exactlyOneOf := ["aws", "azure_connector", "azure_sdk", "docker", "dictionary",
        "ecr", "gcp", "keypair", "nats_account", "opaque", "tls", "userpass"] },
    { name := "userpass", type := ValueType.TypeList,
      exactlyOneOf := secretDataObjectsNames,
      elem := ["username", "password", "encoding"] },
    { name := "keypair", type := ValueType.TypeList,
      exactlyOneOf := secretDataObjectsNames,
      elem := ["secret_key", "public_key", "passphrase"] },
    { name := "azure_sdk", type := ValueType.TypeString,
      exactlyOneOf := ["aws", "azure_connector", "azure_sdk", "docker", "dictionary",
        "ecr", "gcp", "keypair", "nats_account", "opaque", "tls", "userpass"] },
    { name := "azure_connector", type := ValueType.TypeList,
      exactlyOneOf := secretDataObjectsNames, elem := ["url", "code"] },
    { name := "nats_account", type := ValueType.TypeList,
      exactlyOneOf := secretDataObjectsNames,
      elem := ["account_id", "private_key"] } ]

/-- The schema of resourceDomainRoute (resource_domain_route.go, lines 19-48). -/
def resourceDomainRouteSchema : List SchemaField :=
  [ { name := "domain_link", type := ValueType.TypeString },
    { name := "domain_port", type := ValueType.TypeInt },
    { name := "prefix", type := ValueType.TypeString },
    { name := "replace_prefix", type := ValueType.TypeString },
    { name := "workload_link", type := ValueType.TypeString },
    { name := "port", type := ValueType.TypeInt } ]

/-- The zero value of the field `k` of a schema; `nil` for a name it does not have. -/
def zeroOf (schema : List SchemaField) (k : String) : Value :=
  match schema.find? (fun f => f.name = k) with
  | some f => f.type.zero
  | none => Value.null

/-- The `*schema.ResourceData` a handler receives: the schema of its resource, the
id, the values before the change (`old`) and the values `d.Get` reads and `d.Set`
writes (`new`). -/
structure ResourceData where
  schema : List SchemaField := []
  id : String := ""
  old : List (String × Value) := []
  new : List (String × Value) := []
  deriving DecidableEq, Repr

/-- The call `d.Id()`. -/
def ResourceData.Id (d : ResourceData) : String := d.id

/-- The call `d.SetId(v)`. -/
def ResourceData.SetId (d : ResourceData) (v : String) : ResourceData :=
  { d with id := v }

/-- The call `d.Get(k)`: the current value, the zero value of the type when there is none. -/
def ResourceData.Get (d : ResourceData) (k : String) : Value :=
  (d.new.lookup k).getD (zeroOf d.schema k)

/-- The old value of `k`, the first component of `d.GetChange(k)`. -/
def ResourceData.GetOld (d : ResourceData) (k : String) : Value :=
  (d.old.lookup k).getD (zeroOf d.schema k)

/-- The second component of `d.GetOk(k)`: the value is set to a non-zero value. -/
def ResourceData.GetOk (d : ResourceData) (k : String) : Bool :=
  d.Get k ≠ zeroOf d.schema k

/-- The call `d.HasChange(k)`. -/
def ResourceData.HasChange (d : ResourceData) (k : String) : Bool :=
  d.GetOld k ≠ d.Get k

/-- The call `d.HasChanges(keys...)`. -/
def ResourceData.HasChanges (d : ResourceData) (keys : List String) : Bool :=
  keys.any d.HasChange

/-- The zero value of the key `k` of the block of the schema entry `t`: the key
`repos` of `ecr` is a set of strings (lines 173-181), every other key of a block is
a string. -/
def elemZero (t k : String) : Field :=
  if t = "ecr" ∧ k = "repos" then Field.set [] else Field.str ""

/-- What `d.Set` stores for one key of a block: a nil or missing value is stored as
the zero value of the key, a `[]string` given for a set key is stored as the set. -/
def normalizeElem (t k : String) (v : Field) : Field :=
  match v with
  | Field.null => elemZero t k
  | Field.strs l => if t = "ecr" ∧ k = "repos" then Field.set l else v
  | _ => v

/-- What `d.Set` stores for one block of the schema entry `f`: every key of the
block schema, each with what is stored for it. -/
def normalizeBlock (f : SchemaField) (m : GoMap) : GoMap :=
  f.elem.map (fun k => (k, normalizeElem f.name k (mget m k)))

/-- What `d.Get(k)` reads after `d.Set(k, v)`: an untyped nil reads back as the zero
value of the field, a list of blocks reads back block by block with every key of
the block schema, any other value reads back as it is. -/
def normalizeValue (schema : List SchemaField) (k : String) (v : Value) : Value :=
  match schema.find? (fun f => f.name = k) with
  | none => v
  | some f =>
    match v with
    | Value.null => f.type.zero
    | Value.list bs =>
      if f.type = ValueType.TypeList then Value.list (bs.map (normalizeBlock f)) else v
    | _ => v

/-- The call `d.Set(k, v)`: the field `k` holds what the schema makes of `v`; the
write itself is taken to succeed. -/
def ResourceData.Set (d : ResourceData) (k : String) (v : Value) : ResourceData :=
  { d with new := d.new.filter (fun e => e.1 ≠ k) ++ [(k, normalizeValue d.schema k v)] }

/-- A `diag.Diagnostic` of severity error, with its summary. -/
structure Diagnostic where
  summary : String
  deriving DecidableEq, Repr

/-- The type `diag.Diagnostics`; the empty list is the `nil` a handler returns on
success. -/
abbrev Diagnostics := List Diagnostic

/-- The diagnostics `diag.FromErr(err)` for a non-nil error with message `err`. -/
def diagFromErr (err : String) : Diagnostics := [{ summary := err }]

/-- What a handler leaves behind: the resource data and the diagnostics it
returns; `none` when the handler panics. -/
abbrev Outcome := Option (ResourceData × Diagnostics)

/-- The type assertion `v.(string)`. -/
def Value.asString : Value → Option String
  | Value.str s => some s
  | _ => none

/-- The type assertion `v.(int)`. -/
def Value.asInt : Value → Option Int
  | Value.int n => some n
  | _ => none

/-! ## Helpers and client of the provider package

The two files call helpers and a client that live in other files of the
package. Each is a parameter of the handlers: nothing is assumed about what it
returns. -/

/-- The package helpers the two files call. -/
structure Helpers where
  /-- The helper `GetString(v)`: a `*string`. -/
  GetString : Value → Option String
  /-- The helper `GetInt(v)`: a `*int`. -/
  GetInt : Value → Option Int
  /-- The helper `GetInterface(v)`: a `*interface{}`. -/
  GetInterface : Value → Option Value
  /-- The helper `GetStringMap(v)`: a `*map[string]interface{}`. -/
  GetStringMap : Value → Option GoMap
  /-- The helper `DescriptionHelper(name, description)`: a `*string`. -/
  DescriptionHelper : String → String → Option String
  /-- The helper `GetTagChanges(d)`: a `*map[string]interface{}`. -/
  GetTagChanges : ResourceData → Option GoMap
  /-- The helper `GetNameFromSelfLink(link)`. -/
  GetNameFromSelfLink : String → String
  /-- The helper `ResourceExistsHelper()`: the diagnostics for a resource that already exists. -/
  ResourceExistsHelper : Diagnostics
  /-- The helper `SetBase(d, secret.Base)`: the new resource data, or an error. -/
  SetBase : ResourceData → Secret → Except String ResourceData
  /-- The helper `SetSelfLink(secret.Links, d)`: the new resource data, or an error. -/
  SetSelfLink : Secret → ResourceData → Except String ResourceData

/-- A `client.DomainRoute`: every field is a pointer. -/
structure DomainRoute where
  Prefix : Option String := none
  ReplacePrefix : Option String := none
  WorkloadLink : Option String := none
  Port : Option Int := none
  deriving DecidableEq, Repr

/-- One entry of `*domain.Spec.Ports`. -/
structure DomainSpecPort where
  Number : Option Int := none
  Routes : Option (List DomainRoute) := none
  deriving DecidableEq, Repr

/-- A `client.Domain` as the read handler uses it: `Ports` is `*domain.Spec.Ports`,
`none` when that pointer is nil. -/
structure Domain where
  Ports : Option (List DomainSpecPort) := none
  deriving DecidableEq, Repr

/-- The client calls of the two files. A call answers with an object (a pointer),
an HTTP status code and an error (`none` is the nil error), or with an error only. -/
structure Client where
  CreateSecret : Secret → Option Secret × Int × Option String
  GetSecret : String → Option Secret × Int × Option String
  UpdateSecret : Secret → Option Secret × Int × Option String
  DeleteSecret : String → Option String
  GetDomain : String → Option Domain × Int × Option String
  AddDomainRoute : String → Int → DomainRoute → Option String
  UpdateDomainRoute : String → Int → DomainRoute → Option String
  RemoveDomainRoute : String → Int → String → Option String

/-! ## buildData -/

/-- The test `x != nil && x != ""` of buildData on a map entry. -/
def notNilNotEmpty (v : Field) : Bool :=
  v ≠ Field.null && v ≠ Field.str ""

/-- Lines 403-415 of buildData: the block for `aws` and `ecr`. -/
def buildAwsEcr (secretType : String) (secretData : GoMap) (update : Bool)
    (dataMap : GoMap) : GoMap :=
  if secretType = "aws" ∨ secretType = "ecr" then
    let dataMap := mput dataMap "secretKey" (mget secretData "secret_key")
    let dataMap := mput dataMap "accessKey" (mget secretData "access_key")
    if notNilNotEmpty (mget secretData "role_arn") then
      mput dataMap "roleArn" (mget secretData "role_arn")
    else if update then
      mput dataMap "roleArn" Field.null
    else dataMap
  else dataMap

/-- Lines 417-434 of buildData: the block for `ecr`. The assertion
`secretData["repos"].(*schema.Set)` panics on anything but a set. -/
def buildEcr (secretType : String) (secretData : GoMap) (update : Bool)
    (dataMap : GoMap) : Except Failure GoMap :=
  if secretType = "ecr" then
    let dataMap :=
      if notNilNotEmpty (mget secretData "external_id") then
        mput dataMap "externalId" (mget secretData "external_id")
      else if update then
        mput dataMap "externalId" Field.null
      else dataMap
    match mget secretData "repos" with
    | Field.set l =>
      let repos : List String := l
      if repos.length > 0 then
        Except.ok (mput dataMap "repos" (Field.strs repos))
      else Except.ok dataMap
    | _ => Except.error Failure.panic
  else Except.ok dataMap

/-- Lines 436-455 of buildData: the block for `keypair`. -/
def buildKeypair (secretType : String) (secretData : GoMap) (update : Bool)
    (dataMap : GoMap) : GoMap :=
  if secretType = "keypair" then
    let dataMap := mput dataMap "secretKey" (mget secretData "secret_key")
    let dataMap :=
      if notNilNotEmpty (mget secretData "public_key") then
        mput dataMap "publicKey" (mget secretData "public_key")
      else if update then
        mput dataMap "publicKey" Field.null
      else dataMap
    if notNilNotEmpty (mget secretData "passphrase") then
      mput dataMap "passphrase" (mget secretData "passphrase")
    else if update then
      mput dataMap "passphrase" Field.null
    else dataMap
  else dataMap

/-- Lines 457-476 of buildData: the block for `tls`. -/
def buildTls (secretType : String) (secretData : GoMap) (update : Bool)
    (dataMap : GoMap) : GoMap :=
  if secretType = "tls" then
    let dataMap := mput dataMap "key" (mget secretData "key")
    let dataMap :=
      if notNilNotEmpty (mget secretData "cert") then
        mput dataMap "cert" (mget secretData "cert")
      else if update then
        mput dataMap "cert" Field.null
      else dataMap
    if notNilNotEmpty (mget secretData "chain") then
      mput dataMap "chain" (mget secretData "chain")
    else if update then
      mput dataMap "chain" Field.null
    else dataMap
  else dataMap

/-- Lines 478-481 of buildData: the block for `nats_account`. -/
def buildNats (secretType : String) (secretData : GoMap) (dataMap : GoMap) : GoMap :=
  if secretType = "nats_account" then
    let dataMap := mput dataMap "accountId" (mget secretData "account_id")
    mput dataMap "privateKey" (mget secretData "private_key")
  else dataMap

/-- Lines 400-487 of buildData: the renamed map of the five types that have one. -/
def buildNamed (secretType : String) (secretData : GoMap) (update : Bool) :
    Except Failure GoMap :=
  match buildEcr secretType secretData update
      (buildAwsEcr secretType secretData update []) with
  | Except.error f => Except.error f
  | Except.ok dataMap =>
    Except.ok (buildNats secretType secretData
      (buildTls secretType secretData update
        (buildKeypair secretType secretData update dataMap)))

/-- Lines 491-499 of buildData: the other block types and the dictionary are
copied entry by entry, leaving out every entry whose value is `""`. -/
def buildPlain (secretData : GoMap) : GoMap :=
  secretData.filter (fun e => e.2 ≠ Field.str "")

/-- Lines 366-502 of buildData: the value `dataToSet` points to, `none` when the
pointer stays nil. -/
def buildDataToSet (h : Helpers) (secretType : String) (data : Value) (update : Bool) :
    Except Failure (Option Value) :=
  let dataType : String :=
    match data with
    | Value.str _ => "string"
    | Value.list _ => "interface"
    | Value.map _ => "interface"
    | _ => "unknown"
  let dType : Value :=
    match data with
    | Value.map m => Value.list [m]
    | _ => data
  if dataType = "string" ∧
      (secretType = "gcp" ∨ secretType = "docker" ∨ secretType = "azure_sdk") then
    Except.ok (h.GetInterface dType)
  else if dataType = "interface" then
    match dType with
    | Value.list [secretData] =>
      if secretType = "aws" ∨ secretType = "ecr" ∨ secretType = "keypair" ∨
          secretType = "tls" ∨ secretType = "nats_account" then
        match buildNamed secretType secretData update with
        | Except.error f => Except.error f
        | Except.ok dataMap => Except.ok (some (Value.map dataMap))
      else
        Except.ok (h.GetInterface (Value.map (buildPlain secretData)))
    | _ => Except.ok none
  else Except.ok none

/-- The function buildData (resource_secret.go, lines 364-515): the secret with
its type set and the payload under `Data` (create) or `DataReplace` (update). -/
def buildData (h : Helpers) (secretType : String) (data : Value) (secret : Secret)
    (update : Bool) : Except Failure Secret :=
  let secret := { secret with Typ := some secretType }
  match buildDataToSet h secretType data update with
  | Except.error f => Except.error f
  | Except.ok none =>
    Except.error (Failure.err
      ("invalid secret input or data type. Secret type: " ++ secretType))
  | Except.ok (some v) =>
    if update then Except.ok { secret with DataReplace := some v }
    else Except.ok { secret with Data := some v }

/-! ## The secret handlers -/

/-- The function `getSecretType` (lines 353-362): the first name of
secretDataObjectsNames that is set. -/
def getSecretType (d : ResourceData) : Option String :=
  secretDataObjectsNames.find? (fun s => d.GetOk s)

/-- Lines 327-337 of resourceSecretCreate: the three renamings before the call. -/
def hyphenateType (t : String) : String :=
  let t := if t = "azure_sdk" then "azure-sdk" else t
  let t := if t = "azure_connector" then "azure-connector" else t
  let t := if t = "nats_account" then "nats-account" else t
  t

/-- Lines 637-647 of setSecret: the three renamings of the received type. -/
def normaliseType (t : String) : String :=
  let t := if t = "azure-sdk" then "azure_sdk" else t
  let t := if t = "azure-connector" then "azure_connector" else t
  let t := if t = "nats-account" then "nats_account" else t
  t

/-- Lines 685-710 of setSecret: the local block of `aws`, `ecr`, `keypair` and
`nats_account`, built from the remote map. -/
def setSecretNamed (t : String) (secretData : GoMap) : GoMap :=
  let bData : GoMap := []
  let bData :=
    if t = "aws" ∨ t = "ecr" then
      let bData := mput bData "secret_key" (mget secretData "secretKey")
      let bData := mput bData "access_key" (mget secretData "accessKey")
      let bData := mput bData "role_arn" (mget secretData "roleArn")
      if t = "ecr" then
        let bData := mput bData "external_id" (mget secretData "externalId")
        mput bData "repos" (mget secretData "repos")
      else bData
    else bData
  let bData :=
    if t = "keypair" then
      let bData := mput bData "secret_key" (mget secretData "secretKey")
      let bData := mput bData "public_key" (mget secretData "publicKey")
      mput bData "passphrase" (mget secretData "passphrase")
    else bData
  if t = "nats_account" then
    let bData := mput bData "account_id" (mget secretData "accountId")
    mput bData "private_key" (mget secretData "privateKey")
  else bData

/-- Lines 653-720 of setSecret: the writes for the data of a secret of (local) type
`t` and name `name`. A failed type assertion is a panic; `setData[0] = secret.Data`
of the last branch holds a pointer, which `d.Set` follows: a map is written as the
one block, anything else is refused by `d.Set` with an error. -/
def setSecretData (d : ResourceData) (t : String) (name : String)
    (data : Option Value) : Except Failure ResourceData :=
  match data with
  | none => Except.ok d
  | some data =>
    if t = "gcp" ∨ t = "docker" ∨ t = "azure_sdk" then
      match data with
      | Value.str s => Except.ok (d.Set t (Value.str s))
      | _ => Except.error Failure.panic
    else if t = "dictionary" then
      match data with
      | Value.map secretData =>
        let d := d.Set t (Value.map secretData)
        let dict_as_envs : GoMap :=
          secretData.map (fun e =>
            (e.1, Field.str ("cpln://secret/" ++ name ++ "." ++ e.1)))
        Except.ok (d.Set "dictionary_as_envs" (Value.map dict_as_envs))
      | _ => Except.error Failure.panic
    else if t = "aws" ∨ t = "ecr" ∨ t = "keypair" ∨ t = "nats_account" then
      match data with
      | Value.map secretData =>
        Except.ok (d.Set t (Value.list [setSecretNamed t secretData]))
      | _ => Except.error Failure.panic
    else
      match data with
      | Value.map m => Except.ok (d.Set t (Value.list [m]))
      | _ => Except.error (Failure.err (t ++ ": expected a map"))

/-- The function setSecret (lines 624-727). -/
def setSecret (h : Helpers) (d : ResourceData) (secret : Option Secret) : Outcome :=
  match secret with
  | none => some (d.SetId "", [])
  | some secret =>
    match secret.Name with
    | none => none
    | some name =>
      let d := d.SetId name
      match h.SetBase d secret with
      | Except.error e => some (d, diagFromErr e)
      | Except.ok d =>
        match secret.Typ with
        | none => none
        | some t =>
          let t := normaliseType t
          let d := d.Set "dictionary_as_envs" Value.null
          match setSecretData d t name secret.Data with
          | Except.error Failure.panic => none
          | Except.error (Failure.err e) => some (d, diagFromErr e)
          | Except.ok d =>
            match h.SetSelfLink secret d with
            | Except.error e => some (d, diagFromErr e)
            | Except.ok d => some (d, [])

/-- Lines 311-337 of resourceSecretCreate: the secret handed to `c.CreateSecret`,
or the error the handler returns before the call. -/
def resourceSecretCreateRequest (h : Helpers) (d : ResourceData) :
    Except Failure Secret :=
  match h.GetString (d.Get "name"), (d.Get "description").asString with
  | some name, some description =>
    let secret : Secret :=
      { Name := some name
        Description := h.DescriptionHelper name description
        Tags := h.GetStringMap (d.Get "tags") }
    match getSecretType d with
    | none => Except.error (Failure.err "unable to extract secret type")
    | some sType =>
      match buildData h sType (d.Get sType) { secret with Typ := some sType } false with
      | Except.error f => Except.error f
      | Except.ok secret =>
        Except.ok { secret with Typ := secret.Typ.map hyphenateType }
  | _, _ => Except.error Failure.panic

/-- The handler resourceSecretCreate (lines 309-351). -/
def resourceSecretCreate (h : Helpers) (c : Client) (d : ResourceData) : Outcome :=
  match resourceSecretCreateRequest h d with
  | Except.error Failure.panic => none
  | Except.error (Failure.err e) => some (d, diagFromErr e)
  | Except.ok secret =>
    match c.CreateSecret secret with
    | (newSecret, code, err) =>
      if code = 409 then some (d, h.ResourceExistsHelper)
      else
        match err with
        | some e => some (d, diagFromErr e)
        | none => setSecret h d newSecret

/-- The handler resourceSecretRead (lines 517-532). -/
def resourceSecretRead (h : Helpers) (c : Client) (d : ResourceData) : Outcome :=
  match c.GetSecret d.Id with
  | (secret, code, err) =>
    if code = 404 then some (d.SetId "", [])
    else
      match err with
      | some e => some (d, diagFromErr e)
      | none => setSecret h d secret

/-- Lines 541-589 of resourceSecretUpdate: the list `changedSecret`. -/
def changedSecret (d : ResourceData) : List String :=
  ["aws", "azure_connector", "azure_sdk", "docker", "dictionary", "ecr", "gcp",
   "keypair", "opaque", "tls", "userpass", "nats_account"].filter
    (fun s => d.HasChange s)

/-- Lines 536-610 of resourceSecretUpdate: `none` when nothing changed (no call is
made), else the secret handed to `c.UpdateSecret`, or the error the handler
returns before the call. -/
def resourceSecretUpdateRequest (h : Helpers) (d : ResourceData) :
    Except Failure (Option Secret) :=
  if d.HasChanges ["description", "tags", "opaque", "tls", "gcp", "aws", "docker",
      "userpass", "keypair", "azure_sdk", "dictionary", "ecr", "azure_connector",
      "nats_account"] then
    let secretToUpdate : Secret := { Name := h.GetString (d.Get "name") }
    let description : Except Failure (Option String) :=
      if d.HasChange "description" then
        match secretToUpdate.Name, (d.Get "description").asString with
        | some name, some description =>
          Except.ok (h.DescriptionHelper name description)
        | _, _ => Except.error Failure.panic
      else Except.ok none
    match description with
    | Except.error f => Except.error f
    | Except.ok description =>
      let secretToUpdate := { secretToUpdate with Description := description }
      let secretToUpdate :=
        if d.HasChange "tags" then
          { secretToUpdate with Tags := h.GetTagChanges d }
        else secretToUpdate
      match changedSecret d with
      | [s] =>
        match h.GetString (Value.str s) with
        | none => Except.error Failure.panic
        | some secretType =>
          match buildData h secretType (d.Get s)
              { secretToUpdate with Typ := some secretType } true with
          | Except.error f => Except.error f
          | Except.ok secretToUpdate => Except.ok (some secretToUpdate)
      | _ => Except.ok (some secretToUpdate)
  else Except.ok none

/-- The handler resourceSecretUpdate (lines 534-622). -/
def resourceSecretUpdate (h : Helpers) (c : Client) (d : ResourceData) : Outcome :=
  match resourceSecretUpdateRequest h d with
  | Except.error Failure.panic => none
  | Except.error (Failure.err e) => some (d, diagFromErr e)
  | Except.ok none => some (d, [])
  | Except.ok (some secretToUpdate) =>
    match c.UpdateSecret secretToUpdate with
    | (updatedSecret, _, err) =>
      match err with
      | some e => some (d, diagFromErr e)
      | none => setSecret h d updatedSecret

/-- The handler resourceSecretDelete (lines 729-740). -/
def resourceSecretDelete (c : Client) (d : ResourceData) : Outcome :=
  match c.DeleteSecret d.Id with
  | some e => some (d, diagFromErr e)
  | none => some (d.SetId "", [])

/-! ## The domain-route handlers -/

/-- What `d.Set` stores for a `*string`: the string it points to, and the zero
value `""` for a nil pointer. -/
def ptrString : Option String → Value
  | some v => Value.str v
  | none => Value.str ""

/-- What `d.Set` stores for a `*int`: the int it points to, and the zero value `0`
for a nil pointer. -/
def ptrInt : Option Int → Value
  | some v => Value.int v
  | none => Value.int 0

/-- The id of line 164: `fmt.Sprintf("%s_%d_%s", domainLink, domainPort, prefix)`. -/
def domainRouteId (domainLink : String) (domainPort : Int) (pfx : String) : String :=
  domainLink ++ "_" ++ toString domainPort ++ "_" ++ pfx

/-- The function setDomainRoute (lines 157-191). -/
def setDomainRoute (d : ResourceData) (domainLink : String) (domainPort : Int)
    (route : Option DomainRoute) : Outcome :=
  match route with
  | none => some (d.SetId "", [])
  | some route =>
    match route.Prefix with
    | none => none
    | some pfx =>
      let d := d.SetId (domainRouteId domainLink domainPort pfx)
      let d := d.Set "domain_link" (Value.str domainLink)
      let d := d.Set "domain_port" (Value.int domainPort)
      let d := d.Set "prefix" (ptrString route.Prefix)
      let d := d.Set "replace_prefix" (ptrString route.ReplacePrefix)
      let d := d.Set "workload_link" (ptrString route.WorkloadLink)
      let d := d.Set "port" (ptrInt route.Port)
      some (d, [])

/-- Lines 58-63 and 117-122: the route built from the configuration. -/
def routeFromConfig (h : Helpers) (d : ResourceData) : DomainRoute :=
  { Prefix := h.GetString (d.Get "prefix")
    ReplacePrefix := h.GetString (d.Get "replace_prefix")
    WorkloadLink := h.GetString (d.Get "workload_link")
    Port := h.GetInt (d.Get "port") }

/-- The handler resourceDomainRouteCreate (lines 53-73). -/
def resourceDomainRouteCreate (h : Helpers) (c : Client) (d : ResourceData) : Outcome :=
  match (d.Get "domain_link").asString, (d.Get "domain_port").asInt with
  | some domainLink, some domainPort =>
    let route := routeFromConfig h d
    match c.AddDomainRoute (h.GetNameFromSelfLink domainLink) domainPort route with
    | some e => some (d, diagFromErr e)
    | none => setDomainRoute d domainLink domainPort (some route)
  | _, _ => none

/-- Lines 96-103 of resourceDomainRouteRead: the first route of one port whose
prefix is `pfx`; the outer `none` is the panic on a nil `route.Prefix`. -/
def findRoute (pfx : String) : List DomainRoute → Option (Option DomainRoute)
  | [] => some none
  | route :: rest =>
    match route.Prefix with
    | none => none
    | some p => if p ≠ pfx then findRoute pfx rest else some (some route)

/-- Lines 92-105 of resourceDomainRouteRead: the route the loops return on, if
any; the outer `none` is the panic on a nil pointer. -/
def findDomainRoute (domainPort : Int) (pfx : String) :
    List DomainSpecPort → Option (Option DomainRoute)
  | [] => some none
  | value :: rest =>
    match value.Number with
    | none => none
    | some number =>
      if number = domainPort ∧ (value.Routes ≠ none ∧ (value.Routes.getD []).length > 0) then
        match findRoute pfx (value.Routes.getD []) with
        | none => none
        | some (some route) => some (some route)
        | some none => findDomainRoute domainPort pfx rest
      else findDomainRoute domainPort pfx rest

/-- The handler resourceDomainRouteRead (lines 75-108). -/
def resourceDomainRouteRead (h : Helpers) (c : Client) (d : ResourceData) : Outcome :=
  match (d.Get "domain_link").asString, (d.Get "domain_port").asInt,
      (d.Get "prefix").asString with
  | some domainLink, some domainPort, some pfx =>
    match c.GetDomain (h.GetNameFromSelfLink domainLink) with
    | (domain, code, err) =>
      if code = 404 then setDomainRoute d domainLink domainPort none
      else
        match err with
        | some e => some (d, diagFromErr e)
        | none =>
          match domain with
          | none => none
          | some domain =>
            match domain.Ports with
            | none => none
            | some ports =>
              match findDomainRoute domainPort pfx ports with
              | none => none
              | some (some route) => setDomainRoute d domainLink domainPort (some route)
              | some none => some (d, [])
  | _, _, _ => none

/-- Lines 112-126 of resourceDomainRouteUpdate: `none` when nothing changed (no
call is made), else the arguments of `c.UpdateDomainRoute`; the outer `none` is a
panic. -/
def resourceDomainRouteUpdateRequest (h : Helpers) (d : ResourceData) :
    Option (Option (String × Int × DomainRoute)) :=
  if d.HasChanges ["replace_prefix", "workload_link", "port"] then
    match (d.Get "domain_link").asString, (d.Get "domain_port").asInt with
    | some domainLink, some domainPort =>
      some (some (domainLink, domainPort, routeFromConfig h d))
    | _, _ => none
  else some none

/-- The handler resourceDomainRouteUpdate (lines 110-136). -/
def resourceDomainRouteUpdate (h : Helpers) (c : Client) (d : ResourceData) : Outcome :=
  match resourceDomainRouteUpdateRequest h d with
  | none => none
  | some none => some (d, [])
  | some (some (domainLink, domainPort, route)) =>
    match c.UpdateDomainRoute (h.GetNameFromSelfLink domainLink) domainPort route with
    | some e => some (d, diagFromErr e)
    | none => setDomainRoute d domainLink domainPort (some route)

/-- The handler resourceDomainRouteDelete (lines 138-155). -/
def resourceDomainRouteDelete (h : Helpers) (c : Client) (d : ResourceData) : Outcome :=
  match (d.Get "domain_link").asString, (d.Get "domain_port").asInt,
      (d.Get "prefix").asString with
  | some domainLink, some domainPort, some pfx =>
    match c.RemoveDomainRoute (h.GetNameFromSelfLink domainLink) domainPort pfx with
    | some e => some (d, diagFromErr e)
    | none => some (d.SetId "", [])
  | _, _, _ => none

/-- The helpers that hand back a pointer to what they are given, with no
description, tag or link handling: an instance the definitions can be run on. -/
def pointerHelpers : Helpers where
  GetString := Value.asString
  GetInt := Value.asInt
  GetInterface := fun v => some v
  GetStringMap := fun v => match v with
    | Value.map m => some m
    | _ => none
  DescriptionHelper := fun _ description => some description
  GetTagChanges := fun _ => none
  GetNameFromSelfLink := fun link => link
  ResourceExistsHelper := [{ summary := "resource already exists" }]
  SetBase := fun d _ => Except.ok d
  SetSelfLink := fun _ d => Except.ok d

/-- The remote spelling of a local type name: the three names with an underscore
are hyphenated, every other name is itself. -/
def remoteSpelling (t : String) : String :=
  if t = "azure_sdk" then "azure-sdk"
  else if t = "azure_connector" then "azure-connector"
  else if t = "nats_account" then "nats-account"
  else t

/-- A configuration of the secret resource with the one field `k` set to `v`. -/
def secretConfig (k : String) (v : Value) : ResourceData :=
  { schema := resourceSecretSchema
    id := "s1"
    old := [("name", Value.str "s1")]
    new := [("name", Value.str "s1"), (k, v)] }

/-- The optional fields that buildData nulls on update: the secret type, the local
field name and the remote key. -/
def optionalFields : List (String × String × String) :=
  [("aws", "role_arn", "roleArn"), ("ecr", "role_arn", "roleArn"),
   ("ecr", "external_id", "externalId"), ("keypair", "public_key", "publicKey"),
   ("keypair", "passphrase", "passphrase"), ("tls", "chain", "chain")]

/-- An `ecr` block with both optional fields empty. -/
def ecrEmptyOptionals : GoMap :=
  [("secret_key", Field.str "sk"), ("access_key", Field.str "AKIA"),
   ("role_arn", Field.str ""), ("external_id", Field.str ""),
   ("repos", Field.set ["repo"])]

/-- An `aws` configuration block that does not write role_arn. -/
def awsNoRole : GoMap :=
  [("secret_key", Field.str "sk"), ("access_key", Field.str "AKIA")]

/-- An `opaque` configuration block that does not write encoding. -/
def opaqueNoEncoding : GoMap := [("payload", Field.str "p")]

/-- The secret resource `s1` in which the one field `k` goes from `old` to `new`. -/
def secretChange (k : String) (old new : Value) : ResourceData :=
  { schema := resourceSecretSchema
    id := "s1"
    old := [("name", Value.str "s1"), (k, old)]
    new := [("name", Value.str "s1"), (k, new)] }

/-- A client that answers every call with the status `code` and the error `err`,
and with no object. -/
def answeringClient (code : Int) (err : Option String) : Client where
  CreateSecret := fun _ => (none, code, err)
  GetSecret := fun _ => (none, code, err)
  UpdateSecret := fun _ => (none, code, err)
  DeleteSecret := fun _ => err
  GetDomain := fun _ => (none, code, err)
  AddDomainRoute := fun _ _ _ => err
  UpdateDomainRoute := fun _ _ _ => err
  RemoveDomainRoute := fun _ _ _ => err

/-- The route `/api` of port 443 of the domain `/org/o/domain/d`, in which the one
field `k` goes from `old` to `new`. -/
def routeChange (k : String) (old new : Value) : ResourceData :=
  { schema := resourceDomainRouteSchema
    id := "/org/o/domain/d_443_/api"
    old := [("domain_link", Value.str "/org/o/domain/d"), ("domain_port", Value.int 443),
      ("prefix", Value.str "/api"), ("workload_link", Value.str "/org/o/gvc/g/workload/w"),
      (k, old)]
    new := [("domain_link", Value.str "/org/o/domain/d"), ("domain_port", Value.int 443),
      ("prefix", Value.str "/api"), ("workload_link", Value.str "/org/o/gvc/g/workload/w"),
      (k, new)] }

/-- Modelled from the spec: the `ExactlyOneOf` check that the schema framework (not
part of these files) runs for one schema entry against a configuration, `isSet`
telling which fields the configuration sets. An entry without the constraint
passes; an entry with it passes when exactly one of the names it lists is set, and
fails when none or several are. -/
def exactlyOneOfHolds (isSet : String → Bool) (f : SchemaField) : Bool :=
  f.exactlyOneOf = [] || (f.exactlyOneOf.filter isSet).length = 1

/-- Modelled from the spec: a configuration passes the exclusivity check of a schema
when the `ExactlyOneOf` check of every entry passes. -/
def validateExactlyOneOf (schema : List SchemaField) (isSet : String → Bool) : Bool :=
  schema.all (exactlyOneOfHolds isSet)

/-- The entry of the secret schema for the shape field `t`. -/
def shapeEntry (t : String) : Option SchemaField :=
  resourceSecretSchema.find? (fun f => f.name = t)

/-- The keys of the block of the shape field `t`, from the schema. -/
def elemKeys (t : String) : List String :=
  match shapeEntry t with
  | some f => f.elem
  | none => []

/-- What a field of the local data of type `t` holds by the schema: `repos` of
`ecr` is a set of strings, every other field a string. -/
def fieldTyped (t k : String) (v : Field) : Bool :=
  if t = "ecr" ∧ k = "repos" then
    match v with
    | Field.set _ => true
    | _ => false
  else
    match v with
    | Field.str _ => true
    | _ => false

/-- The local data `d.Get(t)` of a secret of type `t`, by the schema: a string for a
`TypeString` field, a map of strings for the dictionary (each key once), and for a
block a list of one map that has every key of the block schema, in its order, each
holding a value of its type. -/
def secretShape (t : String) (data : Value) : Bool :=
  match shapeEntry t, data with
  | some f, Value.str _ => f.type = ValueType.TypeString
  | some f, Value.map m =>
    f.type = ValueType.TypeMap && decide (uniqueKeys m) &&
      m.all (fun e => fieldTyped t e.1 e.2)
  | some f, Value.list [m] =>
    f.type = ValueType.TypeList && decide (m.map Prod.fst = f.elem) &&
      m.all (fun e => fieldTyped t e.1 e.2)
  | _, _ => false

/-- Build the payload of a create from the local data of the field `t`, send it
under the remote spelling of the type, then map it back the way setSecret does
(type normalisation, then the writes for the data) and read the local field `t`. -/
def roundTrip (h : Helpers) (d : ResourceData) (name t : String) (data : Value) :
    Except Failure Value :=
  match buildData h t data {} false with
  | Except.error f => Except.error f
  | Except.ok secret =>
    match setSecretData d (normaliseType (hyphenateType t)) name secret.Data with
    | Except.error f => Except.error f
    | Except.ok d' => Except.ok (d'.Get t)

/-- The value a list of decimal digit characters stands for, on top of `acc`. -/
def digitsValue (acc : Nat) (cs : List Char) : Nat :=
  cs.foldl (fun a c => a * 10 + (c.toNat - 48)) acc

/-- The secret resource `s1` whose configuration switches from the shape `gcp` to
the shape `docker`: two shape fields change. -/
def secretSwitch : ResourceData :=
  { schema := resourceSecretSchema
    id := "s1"
    old := [("name", Value.str "s1"), ("gcp", Value.str "a")]
    new := [("name", Value.str "s1"), ("docker", Value.str "b")] }

/-- The route the read handler is to find, in words: the first route, in port order
then route order, whose port number equals `domainPort` and whose prefix equals
`pfx`. -/
def firstMatchingRoute (domainPort : Int) (pfx : String) (ports : List DomainSpecPort) :
    Option DomainRoute :=
  (((ports.filter (fun p => p.Number = some domainPort)).map
      (fun p => p.Routes.getD [])).flatten).find? (fun r => r.Prefix = some pfx)

/-- A client whose GetDomain finds `domain` (status 200, no error) and whose other
calls answer with no object and no error. -/
def domainClient (domain : Domain) : Client where
  CreateSecret := fun _ => (none, 200, none)
  GetSecret := fun _ => (none, 200, none)
  UpdateSecret := fun _ => (none, 200, none)
  DeleteSecret := fun _ => none
  GetDomain := fun _ => (some domain, 200, none)
  AddDomainRoute := fun _ _ _ => none
  UpdateDomainRoute := fun _ _ _ => none
  RemoveDomainRoute := fun _ _ _ => none

/-- Two ports: port 80 has a route `/api`, port 443 has the routes `/x`, `/api` (to
workload `w2`, port 8080) and `/api` again (to workload `w3`). -/
def twoPorts : List DomainSpecPort :=
  [ { Number := some 80
      Routes := some [{ Prefix := some "/api", WorkloadLink := some "w1" }] },
    { Number := some 443
      Routes := some
        [ { Prefix := some "/x", WorkloadLink := some "w0" },
          { Prefix := some "/api", WorkloadLink := some "w2", Port := some 8080 },
          { Prefix := some "/api", WorkloadLink := some "w3" } ] } ]

/-- A domain with the ports `twoPorts`. -/
def twoPortDomain : Domain := { Ports := some twoPorts }

/-- The stored state of the route `pfx` of port 443 of the domain `/org/o/domain/d`. -/
def routeState (pfx : String) : ResourceData :=
  { schema := resourceDomainRouteSchema
    id := "/org/o/domain/d_443_" ++ pfx
    old := []
    new := [("domain_link", Value.str "/org/o/domain/d"), ("domain_port", Value.int 443),
      ("prefix", Value.str pfx), ("workload_link", Value.str "w")] }

/-- The `Default` of the key `k` of the block of the schema entry `t`: `encoding` of
`opaque` and of `userpass` has the default `"plain"` (lines 79-84 and 210-215); the
other optional keys declare the default `""` or none, which is the zero value. -/
def elemDefault (t k : String) : Field :=
  if (t = "opaque" ∨ t = "userpass") ∧ k = "encoding" then Field.str "plain"
  else elemZero t k

/-- The block `d.Get(t)` yields for a configuration block `cfg` that writes only some
of the keys: every key of the block schema, with the value the configuration writes
or, when it omits the key, the default of the key. -/
def blockOfConfig (t : String) (cfg : GoMap) : GoMap :=
  (elemKeys t).map (fun k => (k, (cfg.lookup k).getD (elemDefault t k)))

/-! ## Theorems -/

/-- A successful buildData leaves the type it was given in the secret. -/
theorem buildData_typ (h : Helpers) (t : String) (data : Value) (s s' : Secret)
    (u : Bool) (hb : buildData h t data s u = Except.ok s') : s'.Typ = some t := by
  unfold buildData at hb
  simp only at hb
  split at hb
  · cases hb
  · cases hb
  · split at hb <;> (cases hb; rfl)

/-- After an entry for `k` is written into an association list, `k` holds it. -/
theorem lookup_put_self {β : Type} (m : List (String × β)) (k : String) (v : β) :
    (m.filter (fun e => e.1 ≠ k) ++ [(k, v)]).lookup k = some v := by
  induction m with
  | nil => simp [List.lookup]
  | cons e m ih =>
    by_cases hk : e.1 = k
    · simpa [List.filter_cons, hk] using ih
    · obtain ⟨a, b⟩ := e
      simp only at hk
      have hk2 : (k == a) = false := by simp; exact fun h => hk h.symm
      simpa [List.filter_cons, hk, List.lookup_cons, hk2] using ih

/-- Writing an entry for `k` leaves every other key as it was. -/
theorem lookup_put_ne {β : Type} (m : List (String × β)) (k k' : String) (v : β)
    (hne : k' ≠ k) :
    (m.filter (fun e => e.1 ≠ k) ++ [(k, v)]).lookup k' = m.lookup k' := by
  induction m with
  | nil =>
    have hk2 : (k' == k) = false := by simpa using hne
    simp [List.lookup, hk2]
  | cons e m ih =>
    obtain ⟨a, b⟩ := e
    by_cases hk : a = k
    · subst hk
      have hk2 : (k' == a) = false := by simpa using hne
      simpa [List.filter_cons, List.lookup_cons, hk2] using ih
    · by_cases hk3 : k' = a
      · subst hk3
        simp [List.filter_cons, hk, List.lookup_cons]
      · have hk2 : (k' == a) = false := by simpa using hk3
        simpa [List.filter_cons, hk, List.lookup_cons, hk2] using ih

/-- After `m[k] = v`, the key `k` holds `v`. -/
theorem lookup_mput_self (m : GoMap) (k : String) (v : Field) :
    (mput m k v).lookup k = some v :=
  lookup_put_self m k v

/-- The statement `m[k] = v` leaves every other key as it was. -/
theorem lookup_mput_ne (m : GoMap) (k k' : String) (v : Field) (hne : k' ≠ k) :
    (mput m k v).lookup k' = m.lookup k' :=
  lookup_put_ne m k k' v hne

/-- Reading the key just written. -/
theorem mget_mput_self (m : GoMap) (k : String) (v : Field) :
    mget (mput m k v) k = v := by
  simp [mget, lookup_mput_self]

/-- Reading another key than the one just written. -/
theorem mget_mput_ne (m : GoMap) (k k' : String) (v : Field) (hne : k' ≠ k) :
    mget (mput m k v) k' = mget m k' := by
  simp [mget, lookup_mput_ne _ _ _ _ hne]

/-- The key just written is a key of the map. -/
theorem mhas_mput_self (m : GoMap) (k : String) (v : Field) :
    mhas (mput m k v) k = true := by
  simp [mhas, lookup_mput_self]

/-- Writing one key does not add or remove another. -/
theorem mhas_mput_ne (m : GoMap) (k k' : String) (v : Field) (hne : k' ≠ k) :
    mhas (mput m k v) k' = mhas m k' := by
  simp only [mhas, lookup_mput_ne _ _ _ _ hne]

/-- The empty map has no key. -/
theorem mhas_nil (k : String) : mhas [] k = false := rfl

/-- Every key of the empty map reads as `nil`. -/
theorem mget_nil (k : String) : mget [] k = Field.null := rfl

/-- The type normalisation of setSecret undoes the renaming of create on each of the
twelve names. -/
theorem normalise_hyphenate (t : String) (ht : t ∈ secretDataObjectsNames) :
    normaliseType (hyphenateType t) = t := by
  revert t
  decide

/-- C6: for each of the twelve local type names, the name resourceSecretCreate
sends is the name with azure_sdk, azure_connector and nats_account hyphenated and
the other nine unchanged, and the normalisation at the start of setSecret maps the
sent name back to the local one: on a secret that carries the sent name, setSecret
goes on with the local name, writing the data under it. -/
theorem secret_type_name_round_trip (t : String) (ht : t ∈ secretDataObjectsNames) :
    hyphenateType t = remoteSpelling t ∧
    normaliseType (hyphenateType t) = t ∧
    (∀ (h : Helpers) (d : ResourceData) (secret : Secret),
      getSecretType d = some t →
      resourceSecretCreateRequest h d = Except.ok secret →
      secret.Typ = some (hyphenateType t)) ∧
    (∀ (h : Helpers) (d d₁ : ResourceData) (secret : Secret) (name : String),
      secret.Name = some name →
      secret.Typ = some (hyphenateType t) →
      h.SetBase (d.SetId name) secret = Except.ok d₁ →
      setSecret h d (some secret) =
        match setSecretData (d₁.Set "dictionary_as_envs" Value.null) t name secret.Data with
        | Except.error Failure.panic => none
        | Except.error (Failure.err e) =>
          some (d₁.Set "dictionary_as_envs" Value.null, diagFromErr e)
        | Except.ok d₂ =>
          match h.SetSelfLink secret d₂ with
          | Except.error e => some (d₂, diagFromErr e)
          | Except.ok d₃ => some (d₃, [])) := by
  have hback := normalise_hyphenate t ht
  refine ⟨?_, hback, ?_, ?_⟩
  · simp only [secretDataObjectsNames, List.mem_cons, List.mem_singleton,
      List.mem_nil_iff, or_false] at ht
    rcases ht with rfl | rfl | rfl | rfl | rfl | rfl | rfl | rfl | rfl | rfl | rfl | rfl <;>
      decide
  · intro h d secret hty hreq
    unfold resourceSecretCreateRequest at hreq
    split at hreq
    · simp only [hty] at hreq
      split at hreq
      · cases hreq
      · rename_i s' hb
        cases hreq
        simp [buildData_typ _ _ _ _ _ _ hb]
    · cases hreq
  · intro h d d₁ secret name hname htyp hbase
    simp only [setSecret, hname, htyp, hbase, hback]

/-- C6 at azure_sdk: the name is one of the twelve, it is sent as azure-sdk, the
request built from a configuration with azure_sdk set carries that name, and
setSecret on a secret of type azure-sdk writes its data to the field azure_sdk. -/
theorem secret_type_name_round_trip_witness :
    "azure_sdk" ∈ secretDataObjectsNames ∧
    hyphenateType "azure_sdk" = "azure-sdk" ∧
    normaliseType (hyphenateType "azure_sdk") = "azure_sdk" ∧
    getSecretType (secretConfig "azure_sdk" (Value.str "{}")) = some "azure_sdk" ∧
    (resourceSecretCreateRequest pointerHelpers
      (secretConfig "azure_sdk" (Value.str "{}"))).toOption.bind Secret.Typ
        = some "azure-sdk" ∧
    (setSecret pointerHelpers { schema := resourceSecretSchema }
        (some { Name := some "s1", Typ := some "azure-sdk", Data := some (Value.str "{}") })).map
      (fun r => (r.1.Id, r.1.Get "azure_sdk", r.2)) = some ("s1", Value.str "{}", []) :=
  ⟨by decide,
   (secret_type_name_round_trip "azure_sdk" (by decide)).1,
   (secret_type_name_round_trip "azure_sdk" (by decide)).2.1,
   by decide, by decide,
   by
    rw [(secret_type_name_round_trip "azure_sdk" (by decide)).2.2.2 pointerHelpers
      { schema := resourceSecretSchema } _ _ "s1" rfl rfl rfl]
    decide⟩

/-- The optional fields of aws, ecr, keypair and tls: when the local value fails
the test `x != nil && x != ""`, the payload of an update holds the remote key with
an explicit null and the payload of a create does not hold the key. -/
theorem buildData_optional_unset (h : Helpers) (t lk rk : String)
    (hm : (t, lk, rk) ∈ optionalFields) (secretData : GoMap) (secret : Secret)
    (hunset : notNilNotEmpty (mget secretData lk) = false)
    (hrepos : t = "ecr" → ∃ l, mget secretData "repos" = Field.set l) :
    (∃ m, buildData h t (Value.list [secretData]) secret true
        = Except.ok { secret with Typ := some t, DataReplace := some (Value.map m) } ∧
      mhas m rk = true ∧ mget m rk = Field.null) ∧
    (∃ m, buildData h t (Value.list [secretData]) secret false
        = Except.ok { secret with Typ := some t, Data := some (Value.map m) } ∧
      mhas m rk = false) := by
  simp only [optionalFields, List.mem_cons, List.mem_singleton, Prod.mk.injEq,
    List.mem_nil_iff, or_false] at hm
  rcases hm with ⟨rfl, rfl, rfl⟩ | ⟨rfl, rfl, rfl⟩ | ⟨rfl, rfl, rfl⟩ | ⟨rfl, rfl, rfl⟩ |
    ⟨rfl, rfl, rfl⟩ | ⟨rfl, rfl, rfl⟩
  · simp [buildData, buildDataToSet, buildNamed, buildAwsEcr, buildEcr, buildKeypair, buildTls,
      buildNats, hunset, mhas_mput_self, mhas_mput_ne, mget_mput_self, mget_mput_ne, mhas_nil]
  · obtain ⟨l, hl⟩ := hrepos rfl
    by_cases h1 : notNilNotEmpty (mget secretData "external_id") = true <;>
    by_cases h3 : l = [] <;>
    simp [buildData, buildDataToSet, buildNamed, buildAwsEcr, buildEcr, buildKeypair, buildTls,
      buildNats, hunset, mhas_mput_self, mhas_mput_ne, mget_mput_self, mget_mput_ne, mhas_nil, hl, h1, h3, List.length_pos]
  · obtain ⟨l, hl⟩ := hrepos rfl
    by_cases h1 : notNilNotEmpty (mget secretData "role_arn") = true <;>
    by_cases h3 : l = [] <;>
    simp [buildData, buildDataToSet, buildNamed, buildAwsEcr, buildEcr, buildKeypair, buildTls,
      buildNats, hunset, mhas_mput_self, mhas_mput_ne, mget_mput_self, mget_mput_ne, mhas_nil, hl, h1, h3, List.length_pos]
  · by_cases h1 : notNilNotEmpty (mget secretData "passphrase") = true <;>
    simp [buildData, buildDataToSet, buildNamed, buildAwsEcr, buildEcr, buildKeypair, buildTls,
      buildNats, hunset, mhas_mput_self, mhas_mput_ne, mget_mput_self, mget_mput_ne, mhas_nil, h1]
  · by_cases h1 : notNilNotEmpty (mget secretData "public_key") = true <;>
    simp [buildData, buildDataToSet, buildNamed, buildAwsEcr, buildEcr, buildKeypair, buildTls,
      buildNats, hunset, mhas_mput_self, mhas_mput_ne, mget_mput_self, mget_mput_ne, mhas_nil, h1]
  · by_cases h1 : notNilNotEmpty (mget secretData "cert") = true <;>
    simp [buildData, buildDataToSet, buildNamed, buildAwsEcr, buildEcr, buildKeypair, buildTls,
      buildNats, hunset, mhas_mput_self, mhas_mput_ne, mget_mput_self, mget_mput_ne, mhas_nil, h1]

/-- C2: for aws, ecr, keypair and tls, an optional field whose local value is the
empty string is, with update=true, in the replace payload under its remote key with
an explicit null, and with update=false its remote key is absent from the payload. -/
theorem update_nulls_empty_optional (h : Helpers) (t lk rk : String)
    (hm : (t, lk, rk) ∈ optionalFields) (secretData : GoMap) (secret : Secret)
    (hempty : mget secretData lk = Field.str "")
    (hrepos : t = "ecr" → ∃ l, mget secretData "repos" = Field.set l) :
    (∃ m, buildData h t (Value.list [secretData]) secret true
        = Except.ok { secret with Typ := some t, DataReplace := some (Value.map m) } ∧
      mhas m rk = true ∧ mget m rk = Field.null) ∧
    (∃ m, buildData h t (Value.list [secretData]) secret false
        = Except.ok { secret with Typ := some t, Data := some (Value.map m) } ∧
      mhas m rk = false) :=
  buildData_optional_unset h t lk rk hm secretData secret
    (by rw [hempty]; decide) hrepos

/-- C2 at an `ecr` block whose external_id is empty. -/
theorem update_nulls_empty_optional_witness :
    (∃ m, buildData pointerHelpers "ecr" (Value.list [ecrEmptyOptionals]) {} true
        = Except.ok { Typ := some "ecr", DataReplace := some (Value.map m) } ∧
      mhas m "externalId" = true ∧ mget m "externalId" = Field.null) ∧
    (∃ m, buildData pointerHelpers "ecr" (Value.list [ecrEmptyOptionals]) {} false
        = Except.ok { Typ := some "ecr", Data := some (Value.map m) } ∧
      mhas m "externalId" = false) :=
  update_nulls_empty_optional pointerHelpers "ecr" "external_id" "externalId" (by decide)
    ecrEmptyOptionals {} (by decide) (fun _ => ⟨["repo"], by decide⟩)

/-- C7, the code at an update of azure_sdk: the secret handed to UpdateSecret
carries the local spelling azure_sdk, where create sends azure-sdk. -/
theorem update_sends_local_type_name :
    changedSecret (secretChange "azure_sdk" (Value.str "a") (Value.str "b")) = ["azure_sdk"] ∧
    resourceSecretUpdateRequest pointerHelpers
        (secretChange "azure_sdk" (Value.str "a") (Value.str "b"))
      = Except.ok (some { Name := some "s1", Typ := some "azure_sdk"
                          DataReplace := some (Value.str "b") }) ∧
    (resourceSecretCreateRequest pointerHelpers
        (secretConfig "azure_sdk" (Value.str "b"))).toOption.bind Secret.Typ
      = some "azure-sdk" := by
  decide

/-- C8, refuted as stated: a domain-route create whose client call fails with a
conflict returns the diagnostic of that error, not the resource-exists diagnostics:
the handler sees no status, only the error. -/
theorem status_decides_before_error_counterexample :
    resourceDomainRouteCreate pointerHelpers (answeringClient 409 (some "conflict"))
        (routeChange "port" (Value.int 80) (Value.int 81))
      = some (routeChange "port" (Value.int 80) (Value.int 81), diagFromErr "conflict") ∧
    diagFromErr "conflict" ≠ pointerHelpers.ResourceExistsHelper := by
  decide

/-- C8, amended: the status decides before the error where the handler gets one. A
read answered with 404 clears the id and returns no diagnostic, for the secret and
for the domain route, and a secret create answered with 409 returns the
resource-exists diagnostics and leaves the resource data as it was, whatever object
and error came with the status. The domain-route create gets no status from its
client call, only an error, and returns the diagnostics of that error, leaving the
resource data as it was. -/
theorem status_decides_before_error (h : Helpers) (c : Client) (d : ResourceData) :
    (∀ secret err, c.GetSecret d.Id = (secret, 404, err) →
      resourceSecretRead h c d = some (d.SetId "", [])) ∧
    (∀ domainLink domainPort pfx domain err,
      (d.Get "domain_link").asString = some domainLink →
      (d.Get "domain_port").asInt = some domainPort →
      (d.Get "prefix").asString = some pfx →
      c.GetDomain (h.GetNameFromSelfLink domainLink) = (domain, 404, err) →
      resourceDomainRouteRead h c d = some (d.SetId "", [])) ∧
    (∀ secret newSecret err, resourceSecretCreateRequest h d = Except.ok secret →
      c.CreateSecret secret = (newSecret, 409, err) →
      resourceSecretCreate h c d = some (d, h.ResourceExistsHelper)) ∧
    (∀ domainLink domainPort e,
      (d.Get "domain_link").asString = some domainLink →
      (d.Get "domain_port").asInt = some domainPort →
      c.AddDomainRoute (h.GetNameFromSelfLink domainLink) domainPort
        (routeFromConfig h d) = some e →
      resourceDomainRouteCreate h c d = some (d, diagFromErr e)) := by
  refine ⟨?_, ?_, ?_, ?_⟩
  · intro secret err hc
    simp [resourceSecretRead, hc]
  · intro domainLink domainPort pfx domain err h1 h2 h3 hc
    simp [resourceDomainRouteRead, h1, h2, h3, hc, setDomainRoute]
  · intro secret newSecret err hreq hc
    simp [resourceSecretCreate, hreq, hc]
  · intro domainLink domainPort e h1 h2 hc
    simp [resourceDomainRouteCreate, h1, h2, hc]

/-- C8, amended, at a client that answers 404, and one that answers 409, with an
error. -/
theorem status_decides_before_error_witness :
    resourceSecretRead pointerHelpers (answeringClient 404 (some "not found"))
        (secretConfig "gcp" (Value.str "k"))
      = some ((secretConfig "gcp" (Value.str "k")).SetId "", []) ∧
    resourceDomainRouteRead pointerHelpers (answeringClient 404 (some "not found"))
        (routeChange "port" (Value.int 80) (Value.int 81))
      = some ((routeChange "port" (Value.int 80) (Value.int 81)).SetId "", []) ∧
    resourceSecretCreate pointerHelpers (answeringClient 409 (some "conflict"))
        (secretConfig "gcp" (Value.str "k"))
      = some (secretConfig "gcp" (Value.str "k"), pointerHelpers.ResourceExistsHelper) ∧
    resourceDomainRouteCreate pointerHelpers (answeringClient 409 (some "conflict"))
        (routeChange "port" (Value.int 80) (Value.int 81))
      = some (routeChange "port" (Value.int 80) (Value.int 81), diagFromErr "conflict") :=
  ⟨(status_decides_before_error pointerHelpers (answeringClient 404 (some "not found"))
      (secretConfig "gcp" (Value.str "k"))).1 none (some "not found") rfl,
   (status_decides_before_error pointerHelpers (answeringClient 404 (some "not found"))
      (routeChange "port" (Value.int 80) (Value.int 81))).2.1
      "/org/o/domain/d" 443 "/api" none (some "not found")
      (by decide) (by decide) (by decide) rfl,
   (status_decides_before_error pointerHelpers (answeringClient 409 (some "conflict"))
      (secretConfig "gcp" (Value.str "k"))).2.2.1
      { Name := some "s1", Description := some "", Tags := some [], Typ := some "gcp"
        Data := some (Value.str "k") } none (some "conflict") (by decide) rfl,
   (status_decides_before_error pointerHelpers (answeringClient 409 (some "conflict"))
      (routeChange "port" (Value.int 80) (Value.int 81))).2.2.2
      "/org/o/domain/d" 443 "conflict" (by decide) (by decide) rfl⟩

/-- C9: every handler passes a client error through. When the client call of a
create, read, update or delete handler of either resource returns an error (the
status being neither 404 on a read nor 409 on a create), the handler returns the
diagnostics made from that error and the resource data, id included, is as it was. -/
theorem client_error_passes_through (h : Helpers) (c : Client) (d : ResourceData)
    (e : String) :
    (∀ secret newSecret code, resourceSecretCreateRequest h d = Except.ok secret →
      c.CreateSecret secret = (newSecret, code, some e) → code ≠ 409 →
      resourceSecretCreate h c d = some (d, diagFromErr e)) ∧
    (∀ secret code, c.GetSecret d.Id = (secret, code, some e) → code ≠ 404 →
      resourceSecretRead h c d = some (d, diagFromErr e)) ∧
    (∀ secret updatedSecret code,
      resourceSecretUpdateRequest h d = Except.ok (some secret) →
      c.UpdateSecret secret = (updatedSecret, code, some e) →
      resourceSecretUpdate h c d = some (d, diagFromErr e)) ∧
    (c.DeleteSecret d.Id = some e →
      resourceSecretDelete c d = some (d, diagFromErr e)) ∧
    (∀ domainLink domainPort,
      (d.Get "domain_link").asString = some domainLink →
      (d.Get "domain_port").asInt = some domainPort →
      c.AddDomainRoute (h.GetNameFromSelfLink domainLink) domainPort
        (routeFromConfig h d) = some e →
      resourceDomainRouteCreate h c d = some (d, diagFromErr e)) ∧
    (∀ domainLink domainPort pfx domain code,
      (d.Get "domain_link").asString = some domainLink →
      (d.Get "domain_port").asInt = some domainPort →
      (d.Get "prefix").asString = some pfx →
      c.GetDomain (h.GetNameFromSelfLink domainLink) = (domain, code, some e) →
      code ≠ 404 →
      resourceDomainRouteRead h c d = some (d, diagFromErr e)) ∧
    (∀ domainLink domainPort route,
      resourceDomainRouteUpdateRequest h d = some (some (domainLink, domainPort, route)) →
      c.UpdateDomainRoute (h.GetNameFromSelfLink domainLink) domainPort route = some e →
      resourceDomainRouteUpdate h c d = some (d, diagFromErr e)) ∧
    (∀ domainLink domainPort pfx,
      (d.Get "domain_link").asString = some domainLink →
      (d.Get "domain_port").asInt = some domainPort →
      (d.Get "prefix").asString = some pfx →
      c.RemoveDomainRoute (h.GetNameFromSelfLink domainLink) domainPort pfx = some e →
      resourceDomainRouteDelete h c d = some (d, diagFromErr e)) := by
  refine ⟨?_, ?_, ?_, ?_, ?_, ?_, ?_, ?_⟩
  · intro secret newSecret code hreq hc hcode
    simp [resourceSecretCreate, hreq, hc, hcode]
  · intro secret code hc hcode
    simp [resourceSecretRead, hc, hcode]
  · intro secret updatedSecret code hreq hc
    simp [resourceSecretUpdate, hreq, hc]
  · intro hc
    simp [resourceSecretDelete, hc]
  · intro domainLink domainPort h1 h2 hc
    simp [resourceDomainRouteCreate, h1, h2, hc]
  · intro domainLink domainPort pfx domain code h1 h2 h3 hc hcode
    simp [resourceDomainRouteRead, h1, h2, h3, hc, hcode]
  · intro domainLink domainPort route hreq hc
    simp [resourceDomainRouteUpdate, hreq, hc]
  · intro domainLink domainPort pfx h1 h2 h3 hc
    simp [resourceDomainRouteDelete, h1, h2, h3, hc]

/-- C9 at a client that answers every call with status 500 and the error `boom`:
each of the eight handlers returns that error and leaves the resource data alone. -/
theorem client_error_passes_through_witness :
    resourceSecretCreate pointerHelpers (answeringClient 500 (some "boom"))
        (secretConfig "gcp" (Value.str "k"))
      = some (secretConfig "gcp" (Value.str "k"), diagFromErr "boom") ∧
    resourceSecretRead pointerHelpers (answeringClient 500 (some "boom"))
        (secretConfig "gcp" (Value.str "k"))
      = some (secretConfig "gcp" (Value.str "k"), diagFromErr "boom") ∧
    resourceSecretUpdate pointerHelpers (answeringClient 500 (some "boom"))
        (secretChange "gcp" (Value.str "a") (Value.str "b"))
      = some (secretChange "gcp" (Value.str "a") (Value.str "b"), diagFromErr "boom") ∧
    resourceSecretDelete (answeringClient 500 (some "boom"))
        (secretConfig "gcp" (Value.str "k"))
      = some (secretConfig "gcp" (Value.str "k"), diagFromErr "boom") ∧
    resourceDomainRouteCreate pointerHelpers (answeringClient 500 (some "boom"))
        (routeChange "port" (Value.int 80) (Value.int 81))
      = some (routeChange "port" (Value.int 80) (Value.int 81), diagFromErr "boom") ∧
    resourceDomainRouteRead pointerHelpers (answeringClient 500 (some "boom"))
        (routeChange "port" (Value.int 80) (Value.int 81))
      = some (routeChange "port" (Value.int 80) (Value.int 81), diagFromErr "boom") ∧
    resourceDomainRouteUpdate pointerHelpers (answeringClient 500 (some "boom"))
        (routeChange "port" (Value.int 80) (Value.int 81))
      = some (routeChange "port" (Value.int 80) (Value.int 81), diagFromErr "boom") ∧
    resourceDomainRouteDelete pointerHelpers (answeringClient 500 (some "boom"))
        (routeChange "port" (Value.int 80) (Value.int 81))
      = some (routeChange "port" (Value.int 80) (Value.int 81), diagFromErr "boom") :=
  have hs := client_error_passes_through pointerHelpers (answeringClient 500 (some "boom"))
    (secretConfig "gcp" (Value.str "k")) "boom"
  have hu := client_error_passes_through pointerHelpers (answeringClient 500 (some "boom"))
    (secretChange "gcp" (Value.str "a") (Value.str "b")) "boom"
  have hr := client_error_passes_through pointerHelpers (answeringClient 500 (some "boom"))
    (routeChange "port" (Value.int 80) (Value.int 81)) "boom"
  ⟨hs.1 { Name := some "s1", Description := some "", Tags := some [], Typ := some "gcp"
          Data := some (Value.str "k") } none 500 (by decide) rfl (by decide),
   hs.2.1 none 500 rfl (by decide),
   hu.2.2.1 { Name := some "s1", Typ := some "gcp", DataReplace := some (Value.str "b") }
     none 500 (by decide) rfl,
   hs.2.2.2.1 rfl,
   hr.2.2.2.2.1 "/org/o/domain/d" 443 (by decide) (by decide) rfl,
   hr.2.2.2.2.2.1 "/org/o/domain/d" 443 "/api" none 500 (by decide) (by decide) (by decide)
     rfl (by decide),
   hr.2.2.2.2.2.2.1 "/org/o/domain/d" 443
     { Prefix := some "/api", ReplacePrefix := some "",
       WorkloadLink := some "/org/o/gvc/g/workload/w", Port := some 81 } (by decide) rfl,
   hr.2.2.2.2.2.2.2 "/org/o/domain/d" 443 "/api" (by decide) (by decide) (by decide) rfl⟩

/-- A successful buildData for an update changes the type and the replace payload
of the secret it is given, and nothing else. -/
theorem buildData_update_frame (h : Helpers) (t : String) (data : Value) (s s' : Secret)
    (hb : buildData h t data s true = Except.ok s') :
    s'.Name = s.Name ∧ s'.Description = s.Description ∧ s'.Tags = s.Tags ∧
    s'.Typ = some t ∧ s'.Data = s.Data ∧ ∃ v, s'.DataReplace = some v := by
  unfold buildData at hb
  simp only at hb
  split at hb
  · cases hb
  · cases hb
  · rename_i v _
    simp only [if_true] at hb
    cases hb
    exact ⟨rfl, rfl, rfl, rfl, rfl, v, rfl⟩

/-- C5, refuted as stated: when only port changed, resourceDomainRouteUpdate still
submits workloadLink and replacePrefix, which did not change. -/
theorem update_submits_changed_fields_counterexample :
    (routeChange "port" (Value.int 80) (Value.int 81)).HasChange "workload_link" = false ∧
    (routeChange "port" (Value.int 80) (Value.int 81)).HasChange "replace_prefix" = false ∧
    resourceDomainRouteUpdateRequest pointerHelpers
        (routeChange "port" (Value.int 80) (Value.int 81))
      = some (some ("/org/o/domain/d", 443,
          { Prefix := some "/api", ReplacePrefix := some "",
            WorkloadLink := some "/org/o/gvc/g/workload/w", Port := some 81 })) := by
  decide

/-- C5, amended: in the secret handed to UpdateSecret, Description is set only when
description changed, Tags only when tags changed, and Type or DataReplace only when
a secret-shape field changed; resourceDomainRouteUpdate makes its call only when
one of replace_prefix, workload_link and port changed, and then submits the whole
route as the configuration has it, whichever of the fields changed. -/
theorem update_submits_changed_fields (h : Helpers) (d : ResourceData) :
    (∀ secret, resourceSecretUpdateRequest h d = Except.ok (some secret) →
      (secret.Description ≠ none → d.HasChange "description" = true) ∧
      (secret.Tags ≠ none → d.HasChange "tags" = true) ∧
      (secret.Typ ≠ none ∨ secret.DataReplace ≠ none →
        ∃ s ∈ secretDataObjectsNames, d.HasChange s = true)) ∧
    (∀ domainLink domainPort route,
      resourceDomainRouteUpdateRequest h d = some (some (domainLink, domainPort, route)) →
      d.HasChanges ["replace_prefix", "workload_link", "port"] = true ∧
      route = routeFromConfig h d) := by
  constructor
  · intro secret hreq
    unfold resourceSecretUpdateRequest at hreq
    split at hreq
    · simp only at hreq
      split at hreq
      · cases hreq
      · rename_i description hdesc
        have hD : description ≠ none → d.HasChange "description" = true := by
          intro hne
          by_contra hc
          simp only [hc] at hdesc
          simp at hdesc
          exact hne hdesc.symm
        split at hreq
        · rename_i s hcs
          split at hreq
          · cases hreq
          · split at hreq
            · cases hreq
            · rename_i s2 hb
              obtain ⟨-, h2, h3, -, -, -⟩ := buildData_update_frame _ _ _ _ _ hb
              cases hreq
              refine ⟨?_, ?_, ?_⟩
              · rw [h2]
                split_ifs <;> exact hD
              · rw [h3]
                intro hne
                by_contra hc
                simp [hc] at hne
              · intro _
                have hmem : s ∈ changedSecret d := by rw [hcs]; simp
                unfold changedSecret at hmem
                rw [List.mem_filter] at hmem
                exact ⟨s, hmem.1, hmem.2⟩
        · cases hreq
          refine ⟨?_, ?_, ?_⟩
          · split_ifs <;> exact hD
          · intro hne
            by_contra hc
            simp [hc] at hne
          · intro hne
            exfalso
            split_ifs at hne <;> simp at hne
    · cases hreq
  · intro domainLink domainPort route hreq
    unfold resourceDomainRouteUpdateRequest at hreq
    split at hreq
    · rename_i hch
      refine ⟨hch, ?_⟩
      split at hreq
      · simp at hreq
        exact hreq.2.2.symm
      · cases hreq
    · cases hreq

/-- C5, amended, at an update of gcp alone and at an update of port alone. -/
theorem update_submits_changed_fields_witness :
    (∃ s ∈ secretDataObjectsNames,
      (secretChange "gcp" (Value.str "a") (Value.str "b")).HasChange s = true) ∧
    ((routeChange "port" (Value.int 80) (Value.int 81)).HasChanges
        ["replace_prefix", "workload_link", "port"] = true ∧
      ({ Prefix := some "/api", ReplacePrefix := some "",
         WorkloadLink := some "/org/o/gvc/g/workload/w", Port := some 81 } : DomainRoute)
        = routeFromConfig pointerHelpers (routeChange "port" (Value.int 80) (Value.int 81))) :=
  ⟨((update_submits_changed_fields pointerHelpers
        (secretChange "gcp" (Value.str "a") (Value.str "b"))).1
      { Name := some "s1", Typ := some "gcp", DataReplace := some (Value.str "b") }
      (by decide)).2.2 (Or.inl (by decide)),
   (update_submits_changed_fields pointerHelpers
        (routeChange "port" (Value.int 80) (Value.int 81))).2
      "/org/o/domain/d" 443 _ (by decide)⟩

/-- Every entry of the secret schema either has no `ExactlyOneOf` list or lists the
twelve names of secretDataObjectsNames, in some order. -/
theorem exactlyOneOf_lists (f : SchemaField) (hf : f ∈ resourceSecretSchema) :
    f.exactlyOneOf = [] ∨ f.exactlyOneOf.Perm secretDataObjectsNames := by
  revert f
  decide

/-- Each of the twelve names is an entry of the secret schema that lists the twelve
names. -/
theorem shape_fields_declare_the_list (t : String) (ht : t ∈ secretDataObjectsNames) :
    ∃ f ∈ resourceSecretSchema, f.name = t ∧
      f.exactlyOneOf.Perm secretDataObjectsNames := by
  revert t
  decide

/-- C4: each of the twelve secret-shape fields declares an exactly-one-of constraint
over the twelve names of secretDataObjectsNames (the three inline lists hold the
same names), and a configuration passes the exclusivity check if and only if exactly
one of the twelve fields is set, so none or several set fields fail it. -/
theorem exactly_one_shape_field (isSet : String → Bool) :
    (∀ t ∈ secretDataObjectsNames, ∃ f ∈ resourceSecretSchema, f.name = t ∧
      f.exactlyOneOf.Perm secretDataObjectsNames) ∧
    (validateExactlyOneOf resourceSecretSchema isSet = true ↔
      (secretDataObjectsNames.filter isSet).length = 1) := by
  refine ⟨shape_fields_declare_the_list, ?_⟩
  unfold validateExactlyOneOf
  rw [List.all_eq_true]
  constructor
  · intro hall
    obtain ⟨f, hf, -, hperm⟩ := shape_fields_declare_the_list "aws" (by decide)
    have hchk := hall f hf
    simp only [exactlyOneOfHolds, Bool.or_eq_true, decide_eq_true_eq] at hchk
    rcases hchk with h0 | h1
    · rw [h0] at hperm
      exact absurd hperm.length_eq (by decide)
    · rw [← (hperm.filter isSet).length_eq]
      exact h1
  · intro h1 f hf
    rcases exactlyOneOf_lists f hf with h0 | hperm
    · simp [exactlyOneOfHolds, h0]
    · simp [exactlyOneOfHolds, (hperm.filter isSet).length_eq, h1]

/-- Reading the field just set gives what the schema makes of the value. -/
theorem get_set_self (d : ResourceData) (k : String) (v : Value) :
    (d.Set k v).Get k = normalizeValue d.schema k v := by
  show ((d.new.filter (fun e => e.1 ≠ k) ++ [(k, normalizeValue d.schema k v)]).lookup k).getD _
    = _
  rw [lookup_put_self]
  rfl

/-- Reading another field than the one just set. -/
theorem get_set_ne (d : ResourceData) (k k' : String) (v : Value) (hne : k' ≠ k) :
    (d.Set k v).Get k' = d.Get k' := by
  show ((d.new.filter (fun e => e.1 ≠ k) ++ [(k, normalizeValue d.schema k v)]).lookup k').getD _
    = _
  rw [lookup_put_ne _ _ _ _ hne]
  rfl

/-- A string is stored as it is. -/
theorem normalizeValue_str (schema : List SchemaField) (k s : String) :
    normalizeValue schema k (Value.str s) = Value.str s := by
  unfold normalizeValue
  split <;> rfl

/-- An int is stored as it is. -/
theorem normalizeValue_int (schema : List SchemaField) (k : String) (n : Int) :
    normalizeValue schema k (Value.int n) = Value.int n := by
  unfold normalizeValue
  split <;> rfl

/-- What is stored for a `*string` is stored as it is. -/
theorem normalizeValue_ptrString (schema : List SchemaField) (k : String)
    (p : Option String) : normalizeValue schema k (ptrString p) = ptrString p := by
  cases p <;> exact normalizeValue_str _ _ _

/-- What is stored for a `*int` is stored as it is. -/
theorem normalizeValue_ptrInt (schema : List SchemaField) (k : String)
    (p : Option Int) : normalizeValue schema k (ptrInt p) = ptrInt p := by
  cases p <;> exact normalizeValue_int _ _ _

/-- A typed field other than the repos of ecr is a string. -/
theorem str_of_fieldTyped (t k : String) (v : Field) (hne : ¬(t = "ecr" ∧ k = "repos"))
    (hv : fieldTyped t k v = true) : ∃ s, v = Field.str s := by
  unfold fieldTyped at hv
  rw [if_neg hne] at hv
  cases v with
  | str s => exact ⟨s, rfl⟩
  | null => simp at hv
  | strs l => simp at hv
  | set l => simp at hv

/-- The local data of a `TypeString` shape field is a string. -/
theorem shape_string (t : String) (data : Value)
    (hty : (shapeEntry t).map SchemaField.type = some ValueType.TypeString)
    (hs : secretShape t data = true) : ∃ s, data = Value.str s := by
  unfold secretShape at hs
  cases he : shapeEntry t with
  | none => simp [he] at hty
  | some f =>
    have hty : f.type = ValueType.TypeString := by simpa [he] using hty
    rw [he] at hs
    cases data with
    | str s => exact ⟨s, rfl⟩
    | null => simp at hs
    | int n => simp at hs
    | map m => simp [hty] at hs
    | list l =>
      rcases l with _ | ⟨m, _ | ⟨m2, l⟩⟩
      · simp at hs
      · simp [hty] at hs
      · simp at hs

/-- The local data of the `TypeMap` shape field is a map of typed entries. -/
theorem shape_map (t : String) (data : Value)
    (hty : (shapeEntry t).map SchemaField.type = some ValueType.TypeMap)
    (hs : secretShape t data = true) :
    ∃ m, data = Value.map m ∧ uniqueKeys m ∧
      m.all (fun e => fieldTyped t e.1 e.2) = true := by
  unfold secretShape at hs
  cases he : shapeEntry t with
  | none => simp [he] at hty
  | some f =>
    have hty : f.type = ValueType.TypeMap := by simpa [he] using hty
    rw [he] at hs
    cases data with
    | str s => simp [hty] at hs
    | null => simp at hs
    | int n => simp at hs
    | map m =>
      simp only [hty, decide_True, Bool.true_and, Bool.and_eq_true, decide_eq_true_eq] at hs
      exact ⟨m, rfl, hs.1, hs.2⟩
    | list l =>
      rcases l with _ | ⟨m, _ | ⟨m2, l⟩⟩
      · simp at hs
      · simp [hty] at hs
      · simp at hs

/-- The local data of a `TypeList` shape field is one block with the keys of the
block schema, each holding a value of its type. -/
theorem shape_block (t : String) (data : Value)
    (hty : (shapeEntry t).map SchemaField.type = some ValueType.TypeList)
    (hs : secretShape t data = true) :
    ∃ m, data = Value.list [m] ∧ m.map Prod.fst = elemKeys t ∧
      m.all (fun e => fieldTyped t e.1 e.2) = true := by
  unfold secretShape at hs
  unfold elemKeys
  cases he : shapeEntry t with
  | none => simp [he] at hty
  | some f =>
    have hty : f.type = ValueType.TypeList := by simpa [he] using hty
    rw [he] at hs
    cases data with
    | str s => simp [hty] at hs
    | null => simp at hs
    | int n => simp at hs
    | map m => simp [hty] at hs
    | list l =>
      rcases l with _ | ⟨m, _ | ⟨m2, l⟩⟩
      · simp at hs
      · simp only [hty, decide_True, Bool.true_and, Bool.and_eq_true, decide_eq_true_eq] at hs
        exact ⟨m, rfl, hs.1, hs.2⟩
      · simp at hs

/-- What is read back after a block is written to a block field of the secret
schema: every key of the block schema, each with what is stored for it. -/
theorem get_set_block (d : ResourceData) (hd : d.schema = resourceSecretSchema)
    (t : String) (hty : (shapeEntry t).map SchemaField.type = some ValueType.TypeList)
    (m : GoMap) :
    (d.Set t (Value.list [m])).Get t
      = Value.list [(elemKeys t).map (fun k => (k, normalizeElem t k (mget m k)))] := by
  rw [get_set_self, hd]
  unfold normalizeValue elemKeys
  have hfind : resourceSecretSchema.find? (fun f => f.name = t) = shapeEntry t := rfl
  rw [hfind]
  cases he : shapeEntry t with
  | none => simp [he] at hty
  | some f =>
    have hty : f.type = ValueType.TypeList := by simpa [he] using hty
    have hname : f.name = t := by
      have := List.find?_some (hfind.trans he)
      simpa using this
    simp only [hty, if_true, List.map_cons, List.map_nil, normalizeBlock, hname]

/-- Reading the first key of a map. -/
theorem mget_cons_self (m : GoMap) (k : String) (v : Field) :
    mget ((k, v) :: m) k = v := by
  simp [mget, List.lookup_cons]

/-- Reading a key other than the first of a map. -/
theorem mget_cons_ne (m : GoMap) (k k' : String) (v : Field) (hne : k' ≠ k) :
    mget ((k, v) :: m) k' = mget m k' := by
  have hk2 : (k' == k) = false := by simpa using hne
  simp [mget, List.lookup_cons, hk2]

/-- The round trip of an `aws` block gives the block back. -/
theorem roundTrip_aws (h : Helpers) (d : ResourceData)
    (hd : d.schema = resourceSecretSchema) (name : String) (data : Value)
    (hs : secretShape "aws" data = true) :
    roundTrip h d name "aws" data = Except.ok data := by
  obtain ⟨m, rfl, hkeys, hall⟩ := shape_block "aws" data (by decide) hs
  have hel : elemKeys "aws" = ["secret_key", "access_key", "role_arn"] := by decide
  rw [hel] at hkeys
  rcases m with _ | ⟨⟨a1, v1⟩, _ | ⟨⟨a2, v2⟩, _ | ⟨⟨a3, v3⟩, _ | ⟨e4, m⟩⟩⟩⟩ <;>
    simp at hkeys
  obtain ⟨rfl, rfl, rfl⟩ := hkeys
  simp only [List.all_cons, List.all_nil, Bool.and_true, Bool.and_eq_true] at hall
  obtain ⟨s1, rfl⟩ := str_of_fieldTyped _ _ _ (by decide) hall.1
  obtain ⟨s2, rfl⟩ := str_of_fieldTyped _ _ _ (by decide) hall.2.1
  obtain ⟨s3, rfl⟩ := str_of_fieldTyped _ _ _ (by decide) hall.2.2
  unfold roundTrip
  rw [normalise_hyphenate _ (by decide)]
  by_cases h3 : s3 = "" <;>
    simp [buildData, buildDataToSet, buildNamed, buildAwsEcr, buildEcr, buildKeypair, buildTls,
      buildNats, setSecretData, get_set_block d hd "aws" (by decide), hel, setSecretNamed,
      mget_mput_self, mget_mput_ne, mget_nil, notNilNotEmpty, h3, normalizeElem, elemZero,
      mget_cons_self, mget_cons_ne]

/-- The round trip of a `keypair` block gives the block back. -/
theorem roundTrip_keypair (h : Helpers) (d : ResourceData)
    (hd : d.schema = resourceSecretSchema) (name : String) (data : Value)
    (hs : secretShape "keypair" data = true) :
    roundTrip h d name "keypair" data = Except.ok data := by
  obtain ⟨m, rfl, hkeys, hall⟩ := shape_block "keypair" data (by decide) hs
  have hel : elemKeys "keypair" = ["secret_key", "public_key", "passphrase"] := by decide
  rw [hel] at hkeys
  rcases m with _ | ⟨⟨a1, v1⟩, _ | ⟨⟨a2, v2⟩, _ | ⟨⟨a3, v3⟩, _ | ⟨e4, m⟩⟩⟩⟩ <;>
    simp at hkeys
  obtain ⟨rfl, rfl, rfl⟩ := hkeys
  simp only [List.all_cons, List.all_nil, Bool.and_true, Bool.and_eq_true] at hall
  obtain ⟨s1, rfl⟩ := str_of_fieldTyped _ _ _ (by decide) hall.1
  obtain ⟨s2, rfl⟩ := str_of_fieldTyped _ _ _ (by decide) hall.2.1
  obtain ⟨s3, rfl⟩ := str_of_fieldTyped _ _ _ (by decide) hall.2.2
  unfold roundTrip
  rw [normalise_hyphenate _ (by decide)]
  by_cases h2 : s2 = "" <;>
    by_cases h3 : s3 = "" <;>
    simp [buildData, buildDataToSet, buildNamed, buildAwsEcr, buildEcr, buildKeypair, buildTls,
      buildNats, setSecretData, get_set_block d hd "keypair" (by decide), hel, setSecretNamed,
      mget_mput_self, mget_mput_ne, mget_nil, notNilNotEmpty, h2, h3, normalizeElem, elemZero,
      mget_cons_self, mget_cons_ne]

/-- The round trip of a `nats_account` block gives the block back. -/
theorem roundTrip_nats (h : Helpers) (d : ResourceData)
    (hd : d.schema = resourceSecretSchema) (name : String) (data : Value)
    (hs : secretShape "nats_account" data = true) :
    roundTrip h d name "nats_account" data = Except.ok data := by
  obtain ⟨m, rfl, hkeys, hall⟩ := shape_block "nats_account" data (by decide) hs
  have hel : elemKeys "nats_account" = ["account_id", "private_key"] := by decide
  rw [hel] at hkeys
  rcases m with _ | ⟨⟨a1, v1⟩, _ | ⟨⟨a2, v2⟩, _ | ⟨e3, m⟩⟩⟩ <;>
    simp at hkeys
  obtain ⟨rfl, rfl⟩ := hkeys
  simp only [List.all_cons, List.all_nil, Bool.and_true, Bool.and_eq_true] at hall
  obtain ⟨s1, rfl⟩ := str_of_fieldTyped _ _ _ (by decide) hall.1
  obtain ⟨s2, rfl⟩ := str_of_fieldTyped _ _ _ (by decide) hall.2
  unfold roundTrip
  rw [normalise_hyphenate _ (by decide)]
  simp [buildData, buildDataToSet, buildNamed, buildAwsEcr, buildEcr, buildKeypair, buildTls,
      buildNats, setSecretData, get_set_block d hd "nats_account" (by decide), hel, setSecretNamed,
      mget_mput_self, mget_mput_ne, mget_nil, notNilNotEmpty, normalizeElem, elemZero,
      mget_cons_self, mget_cons_ne]

/-- The round trip of a `tls` block gives the block back. -/
theorem roundTrip_tls (h : Helpers) (d : ResourceData)
    (hd : d.schema = resourceSecretSchema) (name : String) (data : Value)
    (hs : secretShape "tls" data = true) :
    roundTrip h d name "tls" data = Except.ok data := by
  obtain ⟨m, rfl, hkeys, hall⟩ := shape_block "tls" data (by decide) hs
  have hel : elemKeys "tls" = ["key", "cert", "chain"] := by decide
  rw [hel] at hkeys
  rcases m with _ | ⟨⟨a1, v1⟩, _ | ⟨⟨a2, v2⟩, _ | ⟨⟨a3, v3⟩, _ | ⟨e4, m⟩⟩⟩⟩ <;>
    simp at hkeys
  obtain ⟨rfl, rfl, rfl⟩ := hkeys
  simp only [List.all_cons, List.all_nil, Bool.and_true, Bool.and_eq_true] at hall
  obtain ⟨s1, rfl⟩ := str_of_fieldTyped _ _ _ (by decide) hall.1
  obtain ⟨s2, rfl⟩ := str_of_fieldTyped _ _ _ (by decide) hall.2.1
  obtain ⟨s3, rfl⟩ := str_of_fieldTyped _ _ _ (by decide) hall.2.2
  unfold roundTrip
  rw [normalise_hyphenate _ (by decide)]
  by_cases h2 : s2 = "" <;>
    by_cases h3 : s3 = "" <;>
    simp [buildData, buildDataToSet, buildNamed, buildAwsEcr, buildEcr, buildKeypair, buildTls,
      buildNats, setSecretData, get_set_block d hd "tls" (by decide), hel, setSecretNamed,
      mget_mput_self, mget_mput_ne, mget_nil, notNilNotEmpty, h2, h3, normalizeElem, elemZero,
      mget_cons_self, mget_cons_ne]

/-- The round trip of an `opaque` block gives the block back. -/
theorem roundTrip_opaque (h : Helpers) (hp : ∀ v, h.GetInterface v = some v) (d : ResourceData)
    (hd : d.schema = resourceSecretSchema) (name : String) (data : Value)
    (hs : secretShape "opaque" data = true) :
    roundTrip h d name "opaque" data = Except.ok data := by
  obtain ⟨m, rfl, hkeys, hall⟩ := shape_block "opaque" data (by decide) hs
  have hel : elemKeys "opaque" = ["payload", "encoding"] := by decide
  rw [hel] at hkeys
  rcases m with _ | ⟨⟨a1, v1⟩, _ | ⟨⟨a2, v2⟩, _ | ⟨e3, m⟩⟩⟩ <;>
    simp at hkeys
  obtain ⟨rfl, rfl⟩ := hkeys
  simp only [List.all_cons, List.all_nil, Bool.and_true, Bool.and_eq_true] at hall
  obtain ⟨s1, rfl⟩ := str_of_fieldTyped _ _ _ (by decide) hall.1
  obtain ⟨s2, rfl⟩ := str_of_fieldTyped _ _ _ (by decide) hall.2
  unfold roundTrip
  rw [normalise_hyphenate _ (by decide)]
  by_cases h1 : s1 = "" <;>
    by_cases h2 : s2 = "" <;>
    simp [buildData, buildDataToSet, hp, buildPlain, List.filter_cons,
      setSecretData, get_set_block d hd "opaque" (by decide), hel, mget_nil, h1, h2, normalizeElem,
      elemZero, mget_cons_self, mget_cons_ne]

/-- The round trip of an `userpass` block gives the block back. -/
theorem roundTrip_userpass (h : Helpers) (hp : ∀ v, h.GetInterface v = some v) (d : ResourceData)
    (hd : d.schema = resourceSecretSchema) (name : String) (data : Value)
    (hs : secretShape "userpass" data = true) :
    roundTrip h d name "userpass" data = Except.ok data := by
  obtain ⟨m, rfl, hkeys, hall⟩ := shape_block "userpass" data (by decide) hs
  have hel : elemKeys "userpass" = ["username", "password", "encoding"] := by decide
  rw [hel] at hkeys
  rcases m with _ | ⟨⟨a1, v1⟩, _ | ⟨⟨a2, v2⟩, _ | ⟨⟨a3, v3⟩, _ | ⟨e4, m⟩⟩⟩⟩ <;>
    simp at hkeys
  obtain ⟨rfl, rfl, rfl⟩ := hkeys
  simp only [List.all_cons, List.all_nil, Bool.and_true, Bool.and_eq_true] at hall
  obtain ⟨s1, rfl⟩ := str_of_fieldTyped _ _ _ (by decide) hall.1
  obtain ⟨s2, rfl⟩ := str_of_fieldTyped _ _ _ (by decide) hall.2.1
  obtain ⟨s3, rfl⟩ := str_of_fieldTyped _ _ _ (by decide) hall.2.2
  unfold roundTrip
  rw [normalise_hyphenate _ (by decide)]
  by_cases h1 : s1 = "" <;>
    by_cases h2 : s2 = "" <;>
    by_cases h3 : s3 = "" <;>
    simp [buildData, buildDataToSet, hp, buildPlain, List.filter_cons,
      setSecretData, get_set_block d hd "userpass" (by decide), hel, mget_nil, h1, h2, h3, normalizeElem,
      elemZero, mget_cons_self, mget_cons_ne]

/-- The round trip of an `azure_connector` block gives the block back. -/
theorem roundTrip_azure_connector (h : Helpers) (hp : ∀ v, h.GetInterface v = some v) (d : ResourceData)
    (hd : d.schema = resourceSecretSchema) (name : String) (data : Value)
    (hs : secretShape "azure_connector" data = true) :
    roundTrip h d name "azure_connector" data = Except.ok data := by
  obtain ⟨m, rfl, hkeys, hall⟩ := shape_block "azure_connector" data (by decide) hs
  have hel : elemKeys "azure_connector" = ["url", "code"] := by decide
  rw [hel] at hkeys
  rcases m with _ | ⟨⟨a1, v1⟩, _ | ⟨⟨a2, v2⟩, _ | ⟨e3, m⟩⟩⟩ <;>
    simp at hkeys
  obtain ⟨rfl, rfl⟩ := hkeys
  simp only [List.all_cons, List.all_nil, Bool.and_true, Bool.and_eq_true] at hall
  obtain ⟨s1, rfl⟩ := str_of_fieldTyped _ _ _ (by decide) hall.1
  obtain ⟨s2, rfl⟩ := str_of_fieldTyped _ _ _ (by decide) hall.2
  unfold roundTrip
  rw [normalise_hyphenate _ (by decide)]
  by_cases h1 : s1 = "" <;>
    by_cases h2 : s2 = "" <;>
    simp [buildData, buildDataToSet, hp, buildPlain, List.filter_cons,
      setSecretData, get_set_block d hd "azure_connector" (by decide), hel, mget_nil, h1, h2, normalizeElem,
      elemZero, mget_cons_self, mget_cons_ne]

/-- The typed value of the key repos of an ecr block is a set. -/
theorem set_of_fieldTyped (v : Field) (hv : fieldTyped "ecr" "repos" v = true) :
    ∃ l, v = Field.set l := by
  unfold fieldTyped at hv
  simp only [and_self, if_true] at hv
  cases v with
  | set l => exact ⟨l, rfl⟩
  | null => simp at hv
  | str s => simp at hv
  | strs l => simp at hv

/-- The round trip of an `ecr` block gives the block back. -/
theorem roundTrip_ecr (h : Helpers) (d : ResourceData)
    (hd : d.schema = resourceSecretSchema) (name : String) (data : Value)
    (hs : secretShape "ecr" data = true) :
    roundTrip h d name "ecr" data = Except.ok data := by
  obtain ⟨m, rfl, hkeys, hall⟩ := shape_block "ecr" data (by decide) hs
  have hel : elemKeys "ecr" =
      ["secret_key", "access_key", "role_arn", "external_id", "repos"] := by decide
  rw [hel] at hkeys
  rcases m with _ | ⟨⟨a1, v1⟩, _ | ⟨⟨a2, v2⟩, _ | ⟨⟨a3, v3⟩, _ | ⟨⟨a4, v4⟩,
    _ | ⟨⟨a5, v5⟩, _ | ⟨e6, m⟩⟩⟩⟩⟩⟩ <;>
    simp at hkeys
  obtain ⟨rfl, rfl, rfl, rfl, rfl⟩ := hkeys
  simp only [List.all_cons, List.all_nil, Bool.and_true, Bool.and_eq_true] at hall
  obtain ⟨s1, rfl⟩ := str_of_fieldTyped _ _ _ (by decide) hall.1
  obtain ⟨s2, rfl⟩ := str_of_fieldTyped _ _ _ (by decide) hall.2.1
  obtain ⟨s3, rfl⟩ := str_of_fieldTyped _ _ _ (by decide) hall.2.2.1
  obtain ⟨s4, rfl⟩ := str_of_fieldTyped _ _ _ (by decide) hall.2.2.2.1
  obtain ⟨l, rfl⟩ := set_of_fieldTyped _ hall.2.2.2.2
  unfold roundTrip
  rw [normalise_hyphenate _ (by decide)]
  by_cases h3 : s3 = "" <;>
    by_cases h4 : s4 = "" <;>
    by_cases h5 : l = [] <;>
    simp [buildData, buildDataToSet, buildNamed, buildAwsEcr, buildEcr, buildKeypair, buildTls,
      buildNats, setSecretData, get_set_block d hd "ecr" (by decide), hel, setSecretNamed,
      mget_mput_self, mget_mput_ne, mget_nil, notNilNotEmpty, h3, h4, h5, normalizeElem,
      elemZero, mget_cons_self, mget_cons_ne, List.length_pos]

/-- A map is stored as it is. -/
theorem normalizeValue_map (schema : List SchemaField) (k : String) (m : GoMap) :
    normalizeValue schema k (Value.map m) = Value.map m := by
  unfold normalizeValue
  split <;> rfl

/-- The round trip of a dictionary gives back its entries whose value is not the
empty string. -/
theorem roundTrip_dictionary (h : Helpers) (hp : ∀ v, h.GetInterface v = some v)
    (d : ResourceData) (name : String) (m : GoMap) :
    roundTrip h d name "dictionary" (Value.map m)
      = Except.ok (Value.map (m.filter (fun e => e.2 ≠ Field.str ""))) := by
  unfold roundTrip
  rw [normalise_hyphenate _ (by decide)]
  simp [buildData, buildDataToSet, hp, setSecretData, buildPlain,
    get_set_ne _ _ _ _ (show "dictionary" ≠ "dictionary_as_envs" by decide), get_set_self,
    normalizeValue_map]

/-- The round trip of a secret that is one string gives the string back. -/
theorem roundTrip_string (h : Helpers) (hp : ∀ v, h.GetInterface v = some v)
    (d : ResourceData) (name t : String) (data : Value)
    (ht : t = "gcp" ∨ t = "docker" ∨ t = "azure_sdk")
    (hs : secretShape t data = true) :
    roundTrip h d name t data = Except.ok data := by
  have hty : (shapeEntry t).map SchemaField.type = some ValueType.TypeString := by
    rcases ht with rfl | rfl | rfl <;> decide
  obtain ⟨s, rfl⟩ := shape_string t data hty hs
  unfold roundTrip
  rcases ht with rfl | rfl | rfl <;>
    (rw [normalise_hyphenate _ (by decide)]
     simp [buildData, buildDataToSet, hp, setSecretData, get_set_self, normalizeValue_str])

/-- C1, refuted as stated: a dictionary with an entry whose value is the empty
string comes back without that entry. -/
theorem round_trip_counterexample :
    secretShape "dictionary" (Value.map [("k", Field.str "")]) = true ∧
    roundTrip pointerHelpers (secretConfig "dictionary" (Value.map [("k", Field.str "")]))
        "s1" "dictionary" (Value.map [("k", Field.str "")])
      = Except.ok (Value.map []) ∧
    Value.map [] ≠ Value.map [("k", Field.str "")] := by
  decide

/-- C1, amended: for each of the twelve secret types and every local data value of
that type's shape, building the payload with buildData (update=false) and mapping
it back the way setSecret does gives back the original local data under the same
local field name, except that the dictionary comes back without the entries whose
value is the empty string. -/
theorem round_trip_reproduces (h : Helpers) (hp : ∀ v, h.GetInterface v = some v)
    (d : ResourceData) (hd : d.schema = resourceSecretSchema) (name t : String)
    (data : Value) (ht : t ∈ secretDataObjectsNames) (hs : secretShape t data = true) :
    (t ≠ "dictionary" → roundTrip h d name t data = Except.ok data) ∧
    (t = "dictionary" → ∃ m, data = Value.map m ∧
      roundTrip h d name t data
        = Except.ok (Value.map (m.filter (fun e => e.2 ≠ Field.str "")))) := by
  simp only [secretDataObjectsNames, List.mem_cons, List.mem_singleton, List.mem_nil_iff,
    or_false] at ht
  rcases ht with rfl | rfl | rfl | rfl | rfl | rfl | rfl | rfl | rfl | rfl | rfl | rfl
  · exact ⟨fun _ => roundTrip_aws h d hd name data hs, fun hc => absurd hc (by decide)⟩
  · exact ⟨fun _ => roundTrip_azure_connector h hp d hd name data hs,
      fun hc => absurd hc (by decide)⟩
  · exact ⟨fun _ => roundTrip_string h hp d name _ data (by decide) hs,
      fun hc => absurd hc (by decide)⟩
  · exact ⟨fun _ => roundTrip_string h hp d name _ data (by decide) hs,
      fun hc => absurd hc (by decide)⟩
  · refine ⟨fun hc => absurd rfl hc, fun _ => ?_⟩
    obtain ⟨m, rfl, -, -⟩ := shape_map "dictionary" data (by decide) hs
    exact ⟨m, rfl, roundTrip_dictionary h hp d name m⟩
  · exact ⟨fun _ => roundTrip_ecr h d hd name data hs, fun hc => absurd hc (by decide)⟩
  · exact ⟨fun _ => roundTrip_string h hp d name _ data (by decide) hs,
      fun hc => absurd hc (by decide)⟩
  · exact ⟨fun _ => roundTrip_keypair h d hd name data hs, fun hc => absurd hc (by decide)⟩
  · exact ⟨fun _ => roundTrip_opaque h hp d hd name data hs, fun hc => absurd hc (by decide)⟩
  · exact ⟨fun _ => roundTrip_tls h d hd name data hs, fun hc => absurd hc (by decide)⟩
  · exact ⟨fun _ => roundTrip_userpass h hp d hd name data hs,
      fun hc => absurd hc (by decide)⟩
  · exact ⟨fun _ => roundTrip_nats h d hd name data hs, fun hc => absurd hc (by decide)⟩

/-- C1, amended, at an `ecr` block with empty role_arn and external_id, which comes
back as it is, and at a dictionary with one empty value, which loses that entry. -/
theorem round_trip_reproduces_witness :
    roundTrip pointerHelpers (secretConfig "ecr" (Value.list [ecrEmptyOptionals])) "s1" "ecr"
        (Value.list [ecrEmptyOptionals])
      = Except.ok (Value.list [ecrEmptyOptionals]) ∧
    (∃ m, Value.map [("a", Field.str "x"), ("k", Field.str "")] = Value.map m ∧
      roundTrip pointerHelpers
          (secretConfig "dictionary" (Value.map [("a", Field.str "x"), ("k", Field.str "")]))
          "s1" "dictionary" (Value.map [("a", Field.str "x"), ("k", Field.str "")])
        = Except.ok (Value.map (m.filter (fun e => e.2 ≠ Field.str "")))) :=
  ⟨(round_trip_reproduces pointerHelpers (fun _ => rfl)
      (secretConfig "ecr" (Value.list [ecrEmptyOptionals])) rfl "s1" "ecr"
      (Value.list [ecrEmptyOptionals]) (by decide) (by decide)).1 (by decide),
   (round_trip_reproduces pointerHelpers (fun _ => rfl)
      (secretConfig "dictionary" (Value.map [("a", Field.str "x"), ("k", Field.str "")]))
      rfl "s1" "dictionary" (Value.map [("a", Field.str "x"), ("k", Field.str "")])
      (by decide) (by decide)).2 rfl⟩

/-- A key the configuration omits has no value in it. -/
theorem lookup_of_not_mhas (cfg : GoMap) (k : String) (hk : mhas cfg k = false) :
    cfg.lookup k = none := by
  simpa [mhas] using hk

/-- Reading a key of a map built key by key from a list of keys. -/
theorem mget_map_keys (ks : List String) (f : String → Field) (k : String) (hk : k ∈ ks) :
    mget (ks.map (fun k => (k, f k))) k = f k := by
  induction ks with
  | nil => simp at hk
  | cons a ks ih =>
    by_cases hka : k = a
    · subst hka
      simp [mget_cons_self]
    · rcases List.mem_cons.mp hk with h0 | h1
      · exact absurd h0 hka
      · simp only [List.map_cons]
        rw [mget_cons_ne _ _ _ _ hka]
        exact ih h1

/-- In the block d.Get yields, a key of the block schema holds what the configuration
writes for it, or its default. -/
theorem mget_blockOfConfig (t : String) (cfg : GoMap) (k : String) (hk : k ∈ elemKeys t) :
    mget (blockOfConfig t cfg) k = (cfg.lookup k).getD (elemDefault t k) :=
  mget_map_keys (elemKeys t) _ k hk

/-- C3, refuted as stated: an `aws` configuration that omits role_arn is read as a
block with role_arn `""`, and built with update=true it gives a replace payload that
holds the key roleArn, with null. -/
theorem update_omitted_optional_counterexample :
    mhas awsNoRole "role_arn" = false ∧
    blockOfConfig "aws" awsNoRole
      = [("secret_key", Field.str "sk"), ("access_key", Field.str "AKIA"),
         ("role_arn", Field.str "")] ∧
    buildData pointerHelpers "aws" (Value.list [blockOfConfig "aws" awsNoRole]) {} true
      = Except.ok { Typ := some "aws", DataReplace := some (Value.map
          [("secretKey", Field.str "sk"), ("accessKey", Field.str "AKIA"),
           ("roleArn", Field.null)]) } ∧
    mhas [("secretKey", Field.str "sk"), ("accessKey", Field.str "AKIA"),
      ("roleArn", Field.null)] "roleArn" = true := by
  decide

/-- C3, amended: on update an optional field that the configuration omits is read
as its default and is not left alone. For role_arn (aws, ecr), external_id (ecr),
public_key and passphrase (keypair) and chain (tls), whose default is the empty
string, the replace payload holds the remote key with an explicit null; for encoding
(opaque, userpass), whose default is plain, the replace payload, which is the block
without its empty values, holds encoding plain. -/
theorem update_omitted_optional (h : Helpers) (cfg : GoMap) (secret : Secret) :
    (∀ t lk rk, (t, lk, rk) ∈ optionalFields →
      mhas cfg lk = false →
      (t = "ecr" → ∃ l, cfg.lookup "repos" = some (Field.set l)) →
      ∃ m, buildData h t (Value.list [blockOfConfig t cfg]) secret true
          = Except.ok { secret with Typ := some t, DataReplace := some (Value.map m) } ∧
        mhas m rk = true ∧ mget m rk = Field.null) ∧
    (∀ t, t = "opaque" ∨ t = "userpass" →
      (∀ v, h.GetInterface v = some v) →
      mhas cfg "encoding" = false →
      ∃ m, buildData h t (Value.list [blockOfConfig t cfg]) secret true
          = Except.ok { secret with Typ := some t, DataReplace := some (Value.map m) } ∧
        m = (blockOfConfig t cfg).filter (fun e => e.2 ≠ Field.str "") ∧
        mget m "encoding" = Field.str "plain") := by
  constructor
  · intro t lk rk hm hk hrepos
    have hl := lookup_of_not_mhas cfg lk hk
    have hkey : lk ∈ elemKeys t ∧ elemDefault t lk = Field.str "" :=
      (show ∀ e ∈ optionalFields, e.2.1 ∈ elemKeys e.1 ∧ elemDefault e.1 e.2.1 = Field.str ""
        by decide) (t, lk, rk) hm
    refine (buildData_optional_unset h t lk rk hm (blockOfConfig t cfg) secret ?_ ?_).1
    · rw [mget_blockOfConfig t cfg lk hkey.1, hl, Option.getD_none, hkey.2]
      decide
    · intro ht
      subst ht
      obtain ⟨l, hl'⟩ := hrepos rfl
      exact ⟨l, by rw [mget_blockOfConfig "ecr" cfg "repos" (by decide), hl']; rfl⟩
  · intro t ht hp hk
    have hl := lookup_of_not_mhas cfg "encoding" hk
    refine ⟨(blockOfConfig t cfg).filter (fun e => e.2 ≠ Field.str ""), ?_, rfl, ?_⟩
    · rcases ht with rfl | rfl <;>
        simp [buildData, buildDataToSet, hp, buildPlain]
    · rcases ht with rfl | rfl
      · have he : elemKeys "opaque" = ["payload", "encoding"] := by decide
        by_cases h1 : (cfg.lookup "payload").getD (Field.str "") = Field.str "" <;>
          simp [blockOfConfig, he, hl, elemDefault, elemZero,
            List.filter_cons, h1, mget_cons_self, mget_cons_ne]
      · have he : elemKeys "userpass" = ["username", "password", "encoding"] := by decide
        by_cases h1 : (cfg.lookup "username").getD (Field.str "") = Field.str "" <;>
          by_cases h2 : (cfg.lookup "password").getD (Field.str "") = Field.str "" <;>
          simp [blockOfConfig, he, hl, elemDefault, elemZero,
            List.filter_cons, h1, h2, mget_cons_self, mget_cons_ne]

/-- C3, amended, at an `aws` configuration without role_arn and an `opaque`
configuration without encoding. -/
theorem update_omitted_optional_witness :
    (∃ m, buildData pointerHelpers "aws" (Value.list [blockOfConfig "aws" awsNoRole]) {} true
        = Except.ok { Typ := some "aws", DataReplace := some (Value.map m) } ∧
      mhas m "roleArn" = true ∧ mget m "roleArn" = Field.null) ∧
    (∃ m, buildData pointerHelpers "opaque"
          (Value.list [blockOfConfig "opaque" opaqueNoEncoding]) {} true
        = Except.ok { Typ := some "opaque", DataReplace := some (Value.map m) } ∧
      m = (blockOfConfig "opaque" opaqueNoEncoding).filter (fun e => e.2 ≠ Field.str "") ∧
      mget m "encoding" = Field.str "plain") :=
  ⟨(update_omitted_optional pointerHelpers awsNoRole {}).1 "aws" "role_arn" "roleArn"
      (by decide) (by decide) (fun hne => absurd hne (by decide)),
   (update_omitted_optional pointerHelpers opaqueNoEncoding {}).2 "opaque"
      (Or.inl rfl) (fun _ => rfl) (by decide)⟩

/-- The decimal digit characters: none is an underscore or a minus sign, and each
stands for its digit. -/
theorem digitChar_facts (x : Nat) (hx : x < 10) :
    Nat.digitChar x ≠ '_' ∧ Nat.digitChar x ≠ '-' ∧ (Nat.digitChar x).toNat - 48 = x := by
  revert x
  decide

/-- The decimal digits of a number, read back, give the number. -/
theorem digitsValue_toDigitsCore (fuel : Nat) : ∀ (n : Nat) (ds : List Char), n < fuel →
    digitsValue 0 (Nat.toDigitsCore 10 fuel n ds) = digitsValue n ds := by
  induction fuel with
  | zero => intro n ds hn; omega
  | succ fuel ih =>
    intro n ds hn
    have hd := (digitChar_facts (n % 10) (Nat.mod_lt _ (by decide))).2.2
    unfold Nat.toDigitsCore
    simp only
    by_cases h0 : n / 10 = 0
    · rw [if_pos h0]
      have hlt : n < 10 := by omega
      simp only [digitsValue, List.foldl_cons, hd]
      congr 1
      omega
    · rw [if_neg h0, ih (n / 10) _ (by omega)]
      simp only [digitsValue, List.foldl_cons, hd]
      congr 1
      omega

/-- The decimal digits of a number hold no underscore and no minus sign. -/
theorem toDigitsCore_chars (fuel : Nat) : ∀ (n : Nat) (ds : List Char),
    (∀ c ∈ ds, c ≠ '_' ∧ c ≠ '-') →
    ∀ c ∈ Nat.toDigitsCore 10 fuel n ds, c ≠ '_' ∧ c ≠ '-' := by
  induction fuel with
  | zero => intro n ds hds; simpa [Nat.toDigitsCore] using hds
  | succ fuel ih =>
    intro n ds hds
    have hd := digitChar_facts (n % 10) (Nat.mod_lt _ (by decide))
    have hds' : ∀ c ∈ Nat.digitChar (n % 10) :: ds, c ≠ '_' ∧ c ≠ '-' := by
      intro c hc
      rcases List.mem_cons.mp hc with rfl | hc
      · exact ⟨hd.1, hd.2.1⟩
      · exact hds c hc
    unfold Nat.toDigitsCore
    simp only
    by_cases h0 : n / 10 = 0
    · rw [if_pos h0]; exact hds'
    · rw [if_neg h0]; exact ih _ _ hds'

/-- The characters of `%d` of a natural number. -/
theorem toString_nat_data (n : Nat) : (toString n).data = Nat.toDigits 10 n := rfl

/-- The rendering `%d` of a natural number holds no underscore and no minus sign. -/
theorem nat_chars (n : Nat) : ∀ c ∈ (toString n).data, c ≠ '_' ∧ c ≠ '-' := by
  rw [toString_nat_data]
  exact toDigitsCore_chars _ _ _ (by simp)

/-- The rendering `%d` is one-to-one on the natural numbers. -/
theorem nat_toString_inj (m n : Nat) (hmn : (toString m).data = (toString n).data) :
    m = n := by
  have hm := digitsValue_toDigitsCore (m + 1) m [] (by omega)
  have hn := digitsValue_toDigitsCore (n + 1) n [] (by omega)
  rw [toString_nat_data, toString_nat_data] at hmn
  unfold Nat.toDigits at hmn
  rw [hmn, hn] at hm
  simpa [digitsValue] using hm.symm

/-- The characters of `%d` of an integer. -/
theorem toString_int_data (i : Int) :
    (toString i).data =
      match i with
      | Int.ofNat m => (toString m).data
      | Int.negSucc m => '-' :: (toString (m + 1)).data := by
  cases i <;> rfl

/-- The rendering `%d` of an integer holds no underscore. -/
theorem int_chars (i : Int) : ∀ c ∈ (toString i).data, c ≠ '_' := by
  intro c hc
  rw [toString_int_data] at hc
  cases i with
  | ofNat m => exact (nat_chars m c hc).1
  | negSucc m =>
    rcases List.mem_cons.mp hc with rfl | hc
    · decide
    · exact (nat_chars _ c hc).1

/-- The rendering `%d` is one-to-one on the integers. -/
theorem int_toString_inj (i j : Int) (hij : (toString i).data = (toString j).data) :
    i = j := by
  rw [toString_int_data, toString_int_data] at hij
  cases i with
  | ofNat m =>
    cases j with
    | ofNat n => simp only at hij; rw [nat_toString_inj m n hij]
    | negSucc n =>
      simp only at hij
      have hmem : '-' ∈ (toString m).data := by rw [hij]; simp
      exact absurd rfl (nat_chars m _ hmem).2
  | negSucc m =>
    cases j with
    | ofNat n =>
      simp only at hij
      have hmem : '-' ∈ (toString n).data := by rw [← hij]; simp
      exact absurd rfl (nat_chars n _ hmem).2
    | negSucc n =>
      simp only [List.cons.injEq, true_and] at hij
      have := nat_toString_inj _ _ hij
      have hmn : m = n := by omega
      rw [hmn]

/-- Two lists cut at their first underscore: equal lists have equal parts. -/
theorem split_at_underscore : ∀ (a a' b b' : List Char),
    (∀ c ∈ a, c ≠ '_') → (∀ c ∈ a', c ≠ '_') →
    a ++ '_' :: b = a' ++ '_' :: b' → a = a' ∧ b = b' := by
  intro a
  induction a with
  | nil =>
    intro a' b b' _ ha' heq
    cases a' with
    | nil => simpa using heq
    | cons x xs =>
      simp only [List.nil_append, List.cons_append, List.cons.injEq] at heq
      exact absurd heq.1.symm (ha' x (by simp))
  | cons y ys ih =>
    intro a' b b' ha ha' heq
    cases a' with
    | nil =>
      simp only [List.nil_append, List.cons_append, List.cons.injEq] at heq
      exact absurd heq.1 (ha y (by simp))
    | cons x xs =>
      simp only [List.cons_append, List.cons.injEq] at heq
      obtain ⟨h1, h2⟩ := ih xs b b' (fun c hc => ha c (by simp [hc]))
        (fun c hc => ha' c (by simp [hc])) heq.2
      exact ⟨by rw [heq.1, h1], h2⟩

/-- The characters of the id of a route. -/
theorem domainRouteId_data (l : String) (p : Int) (x : String) :
    (domainRouteId l p x).data
      = l.data ++ '_' :: ((toString p).data ++ '_' :: x.data) := by
  simp [domainRouteId, String.data_append]

/-- C10, refuted as stated: two routes that differ in domainLink, domainPort and
prefix get the same id from setDomainRoute. -/
theorem domain_route_id_counterexample :
    (setDomainRoute {} "/org/o/domain/d_1" 2 (some { Prefix := some "/x" })).map
        (fun r => r.1.Id) = some "/org/o/domain/d_1_2_/x" ∧
    (setDomainRoute {} "/org/o/domain/d" 1 (some { Prefix := some "2_/x" })).map
        (fun r => r.1.Id) = some "/org/o/domain/d_1_2_/x" ∧
    ("/org/o/domain/d_1", (2 : Int), "/x") ≠ ("/org/o/domain/d", (1 : Int), "2_/x") := by
  decide

/-- C10, amended: the id setDomainRoute assigns is domainLink_domainPort_prefix, a
function of the triple alone, and two triples whose domainLink holds no underscore
get the same id only if their domainLink, domainPort and prefix are all equal. -/
theorem domain_route_id (d : ResourceData) :
    (∀ (domainLink : String) (domainPort : Int) (route : DomainRoute) (pfx : String),
      route.Prefix = some pfx →
      ∃ d', setDomainRoute d domainLink domainPort (some route) = some (d', []) ∧
        d'.Id = domainRouteId domainLink domainPort pfx) ∧
    (∀ (link₁ link₂ : String) (port₁ port₂ : Int) (pfx₁ pfx₂ : String),
      '_' ∉ link₁.data → '_' ∉ link₂.data →
      domainRouteId link₁ port₁ pfx₁ = domainRouteId link₂ port₂ pfx₂ →
      link₁ = link₂ ∧ port₁ = port₂ ∧ pfx₁ = pfx₂) := by
  constructor
  · intro domainLink domainPort route pfx hp
    simp [setDomainRoute, hp, ResourceData.Id, ResourceData.Set, ResourceData.SetId]
  · intro l1 l2 p1 p2 x1 x2 h1 h2 heq
    have hd := congrArg String.data heq
    rw [domainRouteId_data, domainRouteId_data] at hd
    obtain ⟨hl, hrest⟩ := split_at_underscore _ _ _ _
      (fun c hc hcu => h1 (hcu ▸ hc)) (fun c hc hcu => h2 (hcu ▸ hc)) hd
    obtain ⟨hp, hx⟩ := split_at_underscore _ _ _ _ (int_chars p1) (int_chars p2) hrest
    exact ⟨String.ext hl, int_toString_inj _ _ hp, String.ext hx⟩

/-- C10, amended, at the route `/api` of port 443 of the domain `/org/o/domain/d`. -/
theorem domain_route_id_witness :
    (∃ d', setDomainRoute {} "/org/o/domain/d" 443 (some { Prefix := some "/api" })
        = some (d', []) ∧
      d'.Id = domainRouteId "/org/o/domain/d" 443 "/api") ∧
    domainRouteId "/org/o/domain/d" 443 "/api" = "/org/o/domain/d_443_/api" ∧
    ("/org/o/domain/d" = "/org/o/domain/d" ∧ (443 : Int) = 443 ∧ "/api" = "/api") :=
  ⟨(domain_route_id {}).1 "/org/o/domain/d" 443 { Prefix := some "/api" } "/api" rfl,
   by decide,
   (domain_route_id {}).2 "/org/o/domain/d" "/org/o/domain/d" 443 443 "/api" "/api"
     (by decide) (by decide) rfl⟩

/-- A successful buildData for an update stores the type it is given and, as the
replace payload, the value buildDataToSet gives for these data. -/
theorem buildData_update_eq (h : Helpers) (t : String) (data : Value) (s s' : Secret)
    (hb : buildData h t data s true = Except.ok s') :
    ∃ v, buildDataToSet h t data true = Except.ok (some v) ∧
      s' = { s with Typ := some t, DataReplace := some v } := by
  unfold buildData at hb
  simp only at hb
  split at hb
  · cases hb
  · cases hb
  · rename_i v hv
    simp only [if_true] at hb
    cases hb
    exact ⟨v, hv, rfl⟩

/-- The list changedSecret of resourceSecretUpdate is the list of the shape fields
that changed, in the order of secretDataObjectsNames. -/
theorem changedSecret_eq (d : ResourceData) :
    changedSecret d = secretDataObjectsNames.filter (fun s => d.HasChange s) := rfl

/-- C11: in the payload resourceSecretUpdate sends, a type and replacement data are
there exactly when exactly one of the twelve secret-shape fields changed, and then
they are that field's name and the data buildData makes of that field; when none or
several shape fields changed the payload has no type and no data, only the name and
the description and tags that changed. -/
theorem update_data_iff_one_shape_changed (h : Helpers) (d : ResourceData)
    (secret : Secret)
    (hreq : resourceSecretUpdateRequest h d = Except.ok (some secret)) :
    (secret.Typ ≠ none ↔
      (secretDataObjectsNames.filter (fun s => d.HasChange s)).length = 1) ∧
    (secret.DataReplace ≠ none ↔
      (secretDataObjectsNames.filter (fun s => d.HasChange s)).length = 1) ∧
    (∀ s, secretDataObjectsNames.filter (fun s => d.HasChange s) = [s] →
      ∃ secretType v, h.GetString (Value.str s) = some secretType ∧
        buildDataToSet h secretType (d.Get s) true = Except.ok (some v) ∧
        secret.Typ = some secretType ∧ secret.DataReplace = some v) ∧
    ((secretDataObjectsNames.filter (fun s => d.HasChange s)).length ≠ 1 →
      secret.Typ = none ∧ secret.DataReplace = none) ∧
    secret.Data = none ∧
    secret.Name = h.GetString (d.Get "name") ∧
    (d.HasChange "description" = false → secret.Description = none) ∧
    (d.HasChange "tags" = false → secret.Tags = none) ∧
    (d.HasChange "tags" = true → secret.Tags = h.GetTagChanges d) := by
  rw [← changedSecret_eq]
  unfold resourceSecretUpdateRequest at hreq
  split at hreq
  · simp only at hreq
    split at hreq
    · cases hreq
    · rename_i description hdesc
      have hD : d.HasChange "description" = false → description = none := by
        intro hc
        simp only [hc] at hdesc
        simpa using hdesc.symm
      split at hreq
      · rename_i s hcs
        split at hreq
        · cases hreq
        · rename_i secretType hgs
          split at hreq
          · cases hreq
          · rename_i s2 hb
            obtain ⟨v, hv, hs2⟩ := buildData_update_eq _ _ _ _ _ hb
            cases hreq
            subst hs2
            refine ⟨?_, ?_, ?_, ?_, ?_, ?_, ?_, ?_, ?_⟩
            · simp [hcs]
            · simp [hcs]
            · intro s' hs'
              rw [hcs] at hs'
              cases hs'
              exact ⟨secretType, v, hgs, hv, rfl, rfl⟩
            · intro hne
              simp [hcs] at hne
            · split_ifs <;> rfl
            · split_ifs <;> rfl
            · intro hc
              split_ifs <;> exact hD hc
            · intro hc
              simp [hc]
            · intro hc
              simp [hc]
      · rename_i hne1
        cases hreq
        have hlen : (changedSecret d).length ≠ 1 := by
          intro hl
          obtain ⟨s, hs⟩ := List.length_eq_one.mp hl
          exact hne1 s hs
        refine ⟨?_, ?_, ?_, ?_, ?_, ?_, ?_, ?_, ?_⟩
        · constructor
          · intro hne
            exfalso
            split_ifs at hne <;> simp at hne
          · intro hl
            exact absurd hl hlen
        · constructor
          · intro hne
            exfalso
            split_ifs at hne <;> simp at hne
          · intro hl
            exact absurd hl hlen
        · intro s hs
          exact absurd hs (hne1 s)
        · intro _
          constructor <;> split_ifs <;> rfl
        · split_ifs <;> rfl
        · split_ifs <;> rfl
        · intro hc
          split_ifs <;> exact hD hc
        · intro hc
          simp [hc]
        · intro hc
          simp [hc]
  · cases hreq

/-- C11 at an update of gcp alone, which sends the type gcp and the new data, and at
a switch from gcp to docker, which sends the name alone. -/
theorem update_data_iff_one_shape_changed_witness :
    resourceSecretUpdateRequest pointerHelpers
        (secretChange "gcp" (Value.str "a") (Value.str "b"))
      = Except.ok (some { Name := some "s1", Typ := some "gcp"
                          DataReplace := some (Value.str "b") }) ∧
    (∃ secretType v, pointerHelpers.GetString (Value.str "gcp") = some secretType ∧
      buildDataToSet pointerHelpers secretType
        ((secretChange "gcp" (Value.str "a") (Value.str "b")).Get "gcp") true
          = Except.ok (some v) ∧
      ({ Name := some "s1", Typ := some "gcp"
         DataReplace := some (Value.str "b") } : Secret).Typ = some secretType ∧
      ({ Name := some "s1", Typ := some "gcp"
         DataReplace := some (Value.str "b") } : Secret).DataReplace = some v) ∧
    (secretDataObjectsNames.filter (fun s => secretSwitch.HasChange s)).length = 2 ∧
    resourceSecretUpdateRequest pointerHelpers secretSwitch
      = Except.ok (some { Name := some "s1" }) ∧
    (({ Name := some "s1" } : Secret).Typ = none ∧
      ({ Name := some "s1" } : Secret).DataReplace = none) :=
  ⟨by decide,
   (update_data_iff_one_shape_changed pointerHelpers
      (secretChange "gcp" (Value.str "a") (Value.str "b")) _ (by decide)).2.2.1 "gcp"
      (by decide),
   by decide, by decide,
   (update_data_iff_one_shape_changed pointerHelpers secretSwitch _
      (by decide)).2.2.2.1 (by decide)⟩

/-- The inner loop of the read handler finds the first route with the prefix, when
no route it passes has a nil prefix. -/
theorem findRoute_eq_find (pfx : String) (routes : List DomainRoute)
    (hp : ∀ r ∈ routes, r.Prefix ≠ none) :
    findRoute pfx routes = some (routes.find? (fun r => r.Prefix = some pfx)) := by
  induction routes with
  | nil => rfl
  | cons r rest ih =>
    have hr := hp r (by simp)
    have ih' := ih (fun r' hr' => hp r' (by simp [hr']))
    cases hpr : r.Prefix with
    | none => exact absurd hpr hr
    | some p =>
      by_cases hpp : p = pfx
      · subst hpp
        simp [findRoute, hpr, List.find?_cons]
      · simp [findRoute, hpr, hpp, List.find?_cons, ih']

/-- The loops of the read handler find the route the words name, when no port has a
nil number and no route of a port with the wanted number has a nil prefix. -/
theorem findDomainRoute_eq_first (domainPort : Int) (pfx : String)
    (ports : List DomainSpecPort)
    (hnum : ∀ p ∈ ports, p.Number ≠ none)
    (hpfx : ∀ p ∈ ports, p.Number = some domainPort →
      ∀ r ∈ p.Routes.getD [], r.Prefix ≠ none) :
    findDomainRoute domainPort pfx ports = some (firstMatchingRoute domainPort pfx ports) := by
  induction ports with
  | nil => rfl
  | cons value rest ih =>
    have ih' := ih (fun p hp => hnum p (by simp [hp]))
      (fun p hp => hpfx p (by simp [hp]))
    have hv := hnum value (by simp)
    cases hn : value.Number with
    | none => exact absurd hn hv
    | some number =>
      by_cases hnp : number = domainPort
      · have hn' : value.Number = some domainPort := by rw [hn, hnp]
        have hfr := findRoute_eq_find pfx (value.Routes.getD [])
          (hpfx value (by simp) hn')
        unfold findDomainRoute
        simp only [hn]
        by_cases hne : value.Routes ≠ none ∧ (value.Routes.getD []).length > 0
        · rw [if_pos ⟨hnp, hne⟩, hfr]
          cases hf : (value.Routes.getD []).find? (fun r => r.Prefix = some pfx) with
          | some route =>
            simp [firstMatchingRoute, List.filter_cons, hn, hnp, List.find?_append, hf]
          | none =>
            simp only [ih']
            simp [firstMatchingRoute, List.filter_cons, hn, hnp, List.find?_append, hf]
        · rw [if_neg (fun hc => hne hc.2), ih']
          have hempty : value.Routes.getD [] = [] := by
            cases hr : value.Routes with
            | none => rfl
            | some rs =>
              simp only [hr, ne_eq, not_false_eq_true, Option.getD_some, true_and, gt_iff_lt,
                List.length_pos, not_not, reduceCtorEq] at hne
              simpa using hne
          simp [firstMatchingRoute, List.filter_cons, hn, hnp, hempty]
      · have hnp' : ¬ (some number = some domainPort) := by simpa using hnp
        unfold findDomainRoute
        simp only [hn]
        rw [if_neg (fun hc => hnp hc.1), ih']
        simp [firstMatchingRoute, List.filter_cons, hn, hnp]

/-- What setDomainRoute leaves behind for a route with the prefix `pfx`: the id of
the triple and the six fields of the route. -/
theorem setDomainRoute_state (d : ResourceData) (domainLink : String) (domainPort : Int)
    (route : DomainRoute) (pfx : String) (hp : route.Prefix = some pfx) :
    ∃ d', setDomainRoute d domainLink domainPort (some route) = some (d', []) ∧
      d'.Id = domainRouteId domainLink domainPort pfx ∧
      d'.Get "domain_link" = Value.str domainLink ∧
      d'.Get "domain_port" = Value.int domainPort ∧
      d'.Get "prefix" = Value.str pfx ∧
      d'.Get "replace_prefix" = ptrString route.ReplacePrefix ∧
      d'.Get "workload_link" = ptrString route.WorkloadLink ∧
      d'.Get "port" = ptrInt route.Port := by
  refine ⟨((((((d.SetId (domainRouteId domainLink domainPort pfx)).Set "domain_link"
    (Value.str domainLink)).Set "domain_port" (Value.int domainPort)).Set "prefix"
    (ptrString route.Prefix)).Set "replace_prefix" (ptrString route.ReplacePrefix)).Set
    "workload_link" (ptrString route.WorkloadLink)).Set "port" (ptrInt route.Port),
    by simp only [setDomainRoute, hp], rfl, ?_, ?_, ?_, ?_, ?_, ?_⟩
  · simp only [get_set_ne _ _ _ _ (show "domain_link" ≠ "port" by decide),
      get_set_ne _ _ _ _ (show "domain_link" ≠ "workload_link" by decide),
      get_set_ne _ _ _ _ (show "domain_link" ≠ "replace_prefix" by decide),
      get_set_ne _ _ _ _ (show "domain_link" ≠ "prefix" by decide),
      get_set_ne _ _ _ _ (show "domain_link" ≠ "domain_port" by decide), get_set_self,
      normalizeValue_str]
  · simp only [get_set_ne _ _ _ _ (show "domain_port" ≠ "port" by decide),
      get_set_ne _ _ _ _ (show "domain_port" ≠ "workload_link" by decide),
      get_set_ne _ _ _ _ (show "domain_port" ≠ "replace_prefix" by decide),
      get_set_ne _ _ _ _ (show "domain_port" ≠ "prefix" by decide), get_set_self,
      normalizeValue_int]
  · simp only [get_set_ne _ _ _ _ (show "prefix" ≠ "port" by decide),
      get_set_ne _ _ _ _ (show "prefix" ≠ "workload_link" by decide),
      get_set_ne _ _ _ _ (show "prefix" ≠ "replace_prefix" by decide), get_set_self, hp,
      ptrString, normalizeValue_str]
  · simp only [get_set_ne _ _ _ _ (show "replace_prefix" ≠ "port" by decide),
      get_set_ne _ _ _ _ (show "replace_prefix" ≠ "workload_link" by decide), get_set_self,
      normalizeValue_ptrString]
  · simp only [get_set_ne _ _ _ _ (show "workload_link" ≠ "port" by decide), get_set_self,
      normalizeValue_ptrString]
  · simp only [get_set_self, normalizeValue_ptrInt]

/-- C12: in resourceDomainRouteRead, when the domain is found (no 404, no error),
the state is set from the first route, in port order then route order, whose port
number equals domain_port and whose prefix equals the stored prefix; when there is
no such route the handler returns no diagnostic and leaves the resource data, id
included, as it was. -/
theorem read_sets_first_matching_route (h : Helpers) (c : Client) (d : ResourceData)
    (domainLink : String) (domainPort : Int) (pfx : String) (domain : Domain) (code : Int)
    (ports : List DomainSpecPort)
    (h1 : (d.Get "domain_link").asString = some domainLink)
    (h2 : (d.Get "domain_port").asInt = some domainPort)
    (h3 : (d.Get "prefix").asString = some pfx)
    (hc : c.GetDomain (h.GetNameFromSelfLink domainLink) = (some domain, code, none))
    (hcode : code ≠ 404)
    (hports : domain.Ports = some ports)
    (hnum : ∀ p ∈ ports, p.Number ≠ none)
    (hpfx : ∀ p ∈ ports, p.Number = some domainPort →
      ∀ r ∈ p.Routes.getD [], r.Prefix ≠ none) :
    (∀ route, firstMatchingRoute domainPort pfx ports = some route →
      ∃ d', resourceDomainRouteRead h c d = some (d', []) ∧
        d'.Id = domainRouteId domainLink domainPort pfx ∧
        d'.Get "domain_link" = Value.str domainLink ∧
        d'.Get "domain_port" = Value.int domainPort ∧
        d'.Get "prefix" = Value.str pfx ∧
        d'.Get "replace_prefix" = ptrString route.ReplacePrefix ∧
        d'.Get "workload_link" = ptrString route.WorkloadLink ∧
        d'.Get "port" = ptrInt route.Port) ∧
    (firstMatchingRoute domainPort pfx ports = none →
      resourceDomainRouteRead h c d = some (d, [])) := by
  have hfind := findDomainRoute_eq_first domainPort pfx ports hnum hpfx
  constructor
  · intro route hr
    have hp : route.Prefix = some pfx := by
      have := List.find?_some hr
      simpa using this
    have hread : resourceDomainRouteRead h c d
        = setDomainRoute d domainLink domainPort (some route) := by
      simp [resourceDomainRouteRead, h1, h2, h3, hc, hcode, hports, hfind, hr]
    rw [hread]
    exact setDomainRoute_state d domainLink domainPort route pfx hp
  · intro hnone
    simp [resourceDomainRouteRead, h1, h2, h3, hc, hcode, hports, hfind, hnone]

/-- C12 at a domain with two ports: the state is set from the first `/api` route of
port 443 (its nil replacePrefix reads back as the empty string), and a prefix no
route has leaves the state as it was. -/
theorem read_sets_first_matching_route_witness :
    firstMatchingRoute 443 "/api" twoPorts
      = some { Prefix := some "/api", WorkloadLink := some "w2", Port := some 8080 } ∧
    (∃ d', resourceDomainRouteRead pointerHelpers (domainClient twoPortDomain)
          (routeState "/api") = some (d', []) ∧
        d'.Id = domainRouteId "/org/o/domain/d" 443 "/api" ∧
        d'.Get "replace_prefix" = Value.str "" ∧
        d'.Get "workload_link" = Value.str "w2" ∧
        d'.Get "port" = Value.int 8080) ∧
    firstMatchingRoute 443 "/gone" twoPorts = none ∧
    resourceDomainRouteRead pointerHelpers (domainClient twoPortDomain) (routeState "/gone")
      = some (routeState "/gone", []) := by
  have hw := read_sets_first_matching_route pointerHelpers (domainClient twoPortDomain) (routeState "/api")
    "/org/o/domain/d" 443 "/api" twoPortDomain 200 twoPorts (by decide) (by decide)
    (by decide) rfl (by decide) rfl (by decide) (by decide)
  have hg := read_sets_first_matching_route pointerHelpers (domainClient twoPortDomain) (routeState "/gone")
    "/org/o/domain/d" 443 "/gone" twoPortDomain 200 twoPorts (by decide) (by decide)
    (by decide) rfl (by decide) rfl (by decide) (by decide)
  refine ⟨by decide, ?_, by decide, hg.2 (by decide)⟩
  obtain ⟨d', hd, hid, -, -, -, hrp, hwl, hport⟩ :=
    hw.1 { Prefix := some "/api", WorkloadLink := some "w2", Port := some 8080 } (by decide)
  exact ⟨d', hd, hid, hrp, hwl, hport⟩

end Cpln
